import Mathlib

/-!
Verification development for the pg-search-opds repository.

Shallow embedding of the core subsystem described in the specification:
the query builder (src/search/full_text_search.py), the field formatters
(src/search/formatters.py), the crosswalk transformers
(src/search/crosswalks.py) and the pagination accessor of the feed layer
(src/opds/opds.py).  Python strings are modelled as Lean `String`
(operating on `String.data : List Char`), Python ints as `Int`, Python
`None` via `Option`, and the handful of regular expressions in
formatters.py as direct operational matchers over `List Char` whose
behaviour mirrors the leftmost, non-overlapping semantics of `re.sub`.
-/

/-! ## Python string primitives -/

/-- ASCII whitespace set of Python `str.strip()` and of the regex class
backslash-s (space, tab, newline, carriage return, vertical tab, form feed).
Unicode whitespace is not modelled; all inputs of interest are ASCII. -/
def pyWhitespace (c : Char) : Bool :=
  c == ' ' || c == '\t' || c == '\n' || c == '\r' || c == '\x0b' || c == '\x0c'

/-- Model of Python `str.strip()` (no arguments): drop leading and trailing
whitespace. -/
def pyStripList (l : List Char) : List Char :=
  ((l.dropWhile pyWhitespace).reverse.dropWhile pyWhitespace).reverse

/-- String version of `pyStripList`. -/
def pyStrip (s : String) : String :=
  String.mk (pyStripList s.data)

/-- Model of Python `str.lower()` restricted to ASCII letters, which is all
the repository ever lowercases (file-type identifiers, language codes). -/
def pyLower (s : String) : String :=
  String.mk (s.data.map Char.toLower)

/-- Model of Python `str.rstrip(": ")`: drop trailing colon and space
characters.  Used by `normalize_text`. -/
def pyRstripColonSpace (s : String) : String :=
  String.mk ((s.data.reverse.dropWhile (fun c => c == ':' || c == ' ')).reverse)

/-- Model of Python `str.lstrip("/")`: drop leading slash characters.
Used by `_gutenberg_url`. -/
def pyLstripSlash (s : String) : String :=
  String.mk (s.data.dropWhile (fun c => c == '/'))

/-- Decimal digit list of a natural number, least significant digit first,
with explicit fuel to keep the recursion structural (each step divides by
ten, so any fuel of at least the digit count is enough; callers pass the
number itself, which always suffices).  Produces the same characters as the
decimal rendering inside a Python f-string. -/
def natDigitsRevAux (fuel n : Nat) : List Char :=
  match fuel with
  | 0 => [Nat.digitChar (n % 10)]
  | fuel + 1 =>
      if n < 10 then [Nat.digitChar n]
      else Nat.digitChar (n % 10) :: natDigitsRevAux fuel (n / 10)

/-- Decimal rendering of a natural number, as produced by a Python
f-string. -/
def decimalStr (n : Nat) : String :=
  String.mk (natDigitsRevAux n n).reverse

/-- Decimal rendering of a Python int (possibly negative). -/
def intStr (i : Int) : String :=
  if i < 0 then "-" ++ decimalStr i.natAbs else decimalStr i.natAbs

/-- Model of Python `str.startswith` on the character lists of the two
strings. -/
def strIsPrefixOf (p s : String) : Bool :=
  p.data.isPrefixOf s.data

/-- Model of the Python substring test `pat in l` on character lists. -/
def hasSubstr (l : List Char) (pat : List Char) : Bool :=
  pat.isPrefixOf l ||
    match l with
    | [] => false
    | _ :: t => hasSubstr t pat

/-- Model of the Python substring test `pat in s` on strings. -/
def hasSubstrStr (s pat : String) : Bool :=
  hasSubstr s.data pat.data

/-- Model of Python `str.replace("%", "")`: remove every percent sign. -/
def removePercent (s : String) : String :=
  String.mk (s.data.filter (fun c => c != '%'))

/-! ## Embedding of src/search/formatters.py -/

/-- ASCII lowercase letter test, the regex class `[a-z]` used in the MARC
subfield marker pattern. -/
def isAsciiLowerAlpha (c : Char) : Bool :=
  'a' ≤ c && c ≤ 'z'

/-- ASCII alphanumeric test, the regex class `[A-Za-z0-9]` used in the MARC
spacing-separator pattern. -/
def isAsciiAlnum (c : Char) : Bool :=
  ('A' ≤ c && c ≤ 'Z') || ('a' ≤ c && c ≤ 'z') || ('0' ≤ c && c ≤ '9')

/-- Operational model of `_RE_MARC_SUBFIELD.sub("", text)` for the pattern
dollar-sign followed by `[a-z]`: scan left to right, remove each
non-overlapping match, and continue after the removed match (so removal can
expose a new marker, which only a later pass would remove). -/
def stripMarcMarkers : List Char → List Char
  | [] => []
  | '$' :: c :: rest =>
      if isAsciiLowerAlpha c then stripMarcMarkers rest
      else '$' :: stripMarcMarkers (c :: rest)
  | c :: rest => c :: stripMarcMarkers rest

/-- Character class `[\n ]` of the MARC spacing-separator pattern. -/
def isSpNl (c : Char) : Bool :=
  c == '\n' || c == ' '

/-- Operational model of `_RE_MARC_SPSEP.sub(r"\1 \2", text)` for the
pattern `[\n ](,|:)([A-Za-z0-9])`: a space or newline followed by a comma
or colon followed by an alphanumeric is rewritten to separator, space,
alphanumeric; scanning continues after the match. -/
def marcSpSep : List Char → List Char
  | a :: b :: c :: rest =>
      if isSpNl a && (b == ',' || b == ':') && isAsciiAlnum c then
        b :: ' ' :: c :: marcSpSep rest
      else a :: marcSpSep (b :: c :: rest)
  | l => l

/-- Embedding of `strip_marc_subfields`: remove subfield markers, fix the
spacing left around separators, then strip. -/
def strip_marc_subfields (text : String) : String :=
  if text = "" then ""
  else pyStrip (String.mk (marcSpSep (stripMarcMarkers text.data)))

/-- Replacement of curly single and double quotes by straight quotes, the
`_RE_CURLY_SINGLE` and `_RE_CURLY_DOUBLE` substitutions. -/
def fixCurly (c : Char) : Char :=
  if c == '‘' || c == '’' then '\x27'
  else if c == '“' || c == '”' then '"'
  else c

/-- Matcher for the title-splitter pattern `\s*[;:]\s*` anchored at the
head of the list: any run of whitespace, then a semicolon or colon, then a
greedy run of whitespace.  Returns the remainder after the match, or `none`
when no match starts here.  Because whitespace characters are never `;` or
`:`, the separator must be the first non-whitespace character, so no
backtracking case is lost. -/
def matchSplit (l : List Char) : Option (List Char) :=
  match l.dropWhile pyWhitespace with
  | c :: r => if c == ';' || c == ':' then some (r.dropWhile pyWhitespace) else none
  | [] => none

/-- Scanner of `_RE_TITLE_SPLITTER.sub(": ", text)` with explicit fuel to
keep the recursion structural: every step consumes at least one character
(a successful match always consumes its separator), so fuel equal to the
length of the list is enough. -/
def titleSplitterAux (fuel : Nat) (l : List Char) : List Char :=
  match fuel with
  | 0 => l
  | fuel + 1 =>
      match l with
      | [] => []
      | c :: cs =>
          match matchSplit (c :: cs) with
          | some rest => ':' :: ' ' :: titleSplitterAux fuel rest
          | none => c :: titleSplitterAux fuel cs

/-- Operational model of `_RE_TITLE_SPLITTER.sub(": ", text)`: replace each
leftmost, non-overlapping run matching `\s*[;:]\s*` by colon-space. -/
def titleSplitter (l : List Char) : List Char :=
  titleSplitterAux l.length l

/-- Embedding of `normalize_text`: straighten curly quotes, collapse
title separators to colon-space, drop trailing colon-space characters,
then strip. -/
def normalize_text (text : String) : String :=
  if text = "" then ""
  else pyStrip (pyRstripColonSpace (String.mk (titleSplitter (text.data.map fixCurly))))

/-- Matcher for the credits pattern `\s*[Uu]pdated?:\s*.*$` anchored at the
head of the list, where the list is a suffix of the whole input so that the
regex anchor refers to the end of the list.  The leading whitespace run,
the marker `Updated:` or `updated:` (the final `d` optional), a whitespace
run and then dot-star must reach the end of the input; dot does not match a
newline and the anchor also matches just before a final newline.  Returns
the remainder the match does not consume (`[]`, or the final newline). -/
def matchUpdated (l : List Char) : Option (List Char) :=
  match l.dropWhile pyWhitespace with
  | u :: 'p' :: 'd' :: 'a' :: 't' :: 'e' :: rest =>
      if u == 'U' || u == 'u' then
        match rest with
        | 'd' :: ':' :: tail => matchUpdatedTail tail
        | ':' :: tail => matchUpdatedTail tail
        | _ => none
      else none
  | _ => none
where
  /-- Tail of the credits pattern after the colon: a whitespace run, then
  dot-star, then the end anchor.  Succeeds exactly when, after the greedy
  whitespace run, no newline remains except possibly as the very last
  character. -/
  matchUpdatedTail (t : List Char) : Option (List Char) :=
    let t2 := t.dropWhile pyWhitespace
    if '\n' ∈ t2.dropLast then none
    else if t2.getLast? = some '\n' then some ['\n'] else some []

/-- Operational model of `_RE_UPDATED.sub("", text)`: find the leftmost
position at which the credits pattern matches and delete the match.  A
successful match always extends to the end anchor, so at most the final
newline remains after it and no further match is possible there; hence a
single replacement suffices. -/
def stripUpdatedSub : List Char → List Char
  | [] => []
  | c :: cs =>
      match matchUpdated (c :: cs) with
      | some rest => rest
      | none => c :: stripUpdatedSub cs

/-- Embedding of `strip_updated`: apply the credits substitution, then
strip. -/
def strip_updated (text : String) : String :=
  if text = "" then ""
  else pyStrip (String.mk (stripUpdatedSub text.data))

/-- Embedding of the `_FIELDS_TO_FORMAT` frozen set. -/
def FIELDS_TO_FORMAT : List String :=
  ["title", "name", "publisher", "summary", "credits", "reading_level",
   "subject", "subjects", "bookshelf", "bookshelves"]

/-- Embedding of `format_field`: marked fields pass through the MARC
stripper and the text normalizer, the credits field additionally through
the updated-marker stripper, and every result is stripped. -/
def format_field (key : String) (value : String) : String :=
  if value = "" then ""
  else
    let v1 := if FIELDS_TO_FORMAT.contains key
              then normalize_text (strip_marc_subfields value) else value
    let v2 := if key = "credits" then strip_updated v1 else v1
    pyStrip v2

/-! ## Embedding of src/search/constants.py (the enumerations the core uses) -/

/-- Embedding of the `SearchType` enumeration. -/
inductive SearchType
  | FTS
  | FUZZY
deriving DecidableEq

/-- Embedding of the `SearchField` enumeration (a single member). -/
inductive SearchField
  | BOOK
deriving DecidableEq

/-- Embedding of the `OrderBy` enumeration. -/
inductive OrderBy
  | RELEVANCE
  | DOWNLOADS
  | TITLE
  | AUTHOR
  | RELEASE_DATE
  | RANDOM
deriving DecidableEq

/-- Embedding of the `SortDirection` enumeration. -/
inductive SortDirection
  | ASC
  | DESC
deriving DecidableEq

/-- Embedding of the `Crosswalk` enumeration. -/
inductive Crosswalk
  | FULL
  | PG
  | OPDS
  | CUSTOM
  | MINI
deriving DecidableEq

/-! ## Embedding of the SearchQuery builder (src/search/full_text_search.py) -/

/-- Values bound as SQL parameters: the builder only ever binds ints,
strings and int lists (the `etexts` membership filter). -/
inductive PValue
  | pint (i : Int)
  | pstr (s : String)
  | pintList (l : List Int)
deriving DecidableEq

/-- Rendering used by `str(val)` in `_order_sql`; search clauses only ever
bind string values, so only the string arm is reachable there. -/
def pvalueStr : PValue → String
  | .pstr s => s
  | .pint i => intStr i
  | .pintList _ => ""

/-- Python dict assignment `d[k] = v`: replace the value of an existing key
in place, otherwise append the binding. -/
def dictSet (d : List (String × PValue)) (k : String) (v : PValue) :
    List (String × PValue) :=
  if d.any (fun kv => kv.1 == k) then
    d.map (fun kv => if kv.1 == k then (k, v) else kv)
  else d ++ [(k, v)]

/-- Python `d.update(kvs)`: assign each binding of `kvs` in order. -/
def dictUpdate (d : List (String × PValue)) (kvs : List (String × PValue)) :
    List (String × PValue) :=
  kvs.foldl (fun acc kv => dictSet acc kv.1 kv.2) d

/-- Embedding of the `SearchQuery` dataclass.  A search clause is a triple
of predicate SQL, parameter binding and ranking column, exactly the tuples
held in `_search`; a filter clause is a pair of predicate SQL and parameter
bindings, as held in `_filters`. -/
structure SearchQuery where
  search_clauses : List (String × List (String × PValue) × String)
  filters : List (String × List (String × PValue))
  order : OrderBy
  sort_dir : Option SortDirection
  page : Int
  page_size : Int
  cw : Crosswalk
  param_counter : Nat

/-- Field defaults of the `SearchQuery` dataclass. -/
def SearchQuery.init : SearchQuery :=
  { search_clauses := []
    filters := []
    order := OrderBy.DOWNLOADS
    sort_dir := none
    page := 1
    page_size := 25
    cw := Crosswalk.PG
    param_counter := 0 }

/-- Embedding of `__getitem__` with an int key, `q[3]`: set the page,
floored at 1. -/
def SearchQuery.setPage (q : SearchQuery) (key : Int) : SearchQuery :=
  { q with page := max 1 key }

/-- Embedding of `__getitem__` with a tuple key, `q[2, 50]`: set the page
floored at 1 and the page size clamped into `[1, 100]`. -/
def SearchQuery.setPageAndSize (q : SearchQuery) (page size : Int) : SearchQuery :=
  { q with page := max 1 page, page_size := max 1 (min 100 size) }

/-- Embedding of the `crosswalk` selector. -/
def SearchQuery.crosswalk (q : SearchQuery) (c : Crosswalk) : SearchQuery :=
  { q with cw := c }

/-- Embedding of `order_by`: record the ordering key and the optional
explicit direction. -/
def SearchQuery.order_by (q : SearchQuery) (o : OrderBy) (d : Option SortDirection) :
    SearchQuery :=
  { q with order := o, sort_dir := d }

/-- Name of the n-th auto-generated parameter, the f-string `__p{n}`. -/
def paramName (n : Nat) : String :=
  "__p" ++ decimalStr n

/-- Embedding of `_new_param`: hand out the next auto-generated parameter
name together with its one-entry binding and bump the monotonic counter. -/
def SearchQuery.new_param (q : SearchQuery) (v : PValue) :
    String × List (String × PValue) × SearchQuery :=
  let pname := paramName q.param_counter
  (pname, [(pname, v)], { q with param_counter := q.param_counter + 1 })

/-- Embedding of the loop body of `filter`: bind each value through
`new_param`, accumulating the parameter bindings and the `:`-prefixed
placeholders in order. -/
def SearchQuery.bindValues (q : SearchQuery) (values : List PValue) :
    SearchQuery × List (String × PValue) × List String :=
  match values with
  | [] => (q, [], [])
  | v :: vs =>
      let (pname, p, q1) := q.new_param v
      let (q2, ps, phs) := q1.bindValues vs
      (q2, p ++ ps, (":" ++ pname) :: phs)

/-- Embedding of `filter`: substitute the generated placeholders into the
SQL template (the role of `str.format`) and append one filter clause. -/
def SearchQuery.filter (q : SearchQuery) (tmpl : List String → String)
    (values : List PValue) : SearchQuery :=
  let (q1, params, placeholders) := q.bindValues values
  { q1 with filters := q1.filters ++ [(tmpl placeholders, params)] }

/-- Column pair of `_FIELD_COLS` for a search field: the tsvector column
and the plain text column. -/
def FIELD_COLS : SearchField → String × String
  | .BOOK => ("tsvec", "book_text")

/-- Embedding of `search`: no-op on blank text; strict mode binds a
websearch predicate against the tsvector column, fuzzy mode a
word-similarity predicate against the text column; the clause retains the
column used for ranking. -/
def SearchQuery.search (q : SearchQuery) (txt0 : String) (field : SearchField)
    (search_type : SearchType) : SearchQuery :=
  let txt := pyStrip txt0
  if txt = "" then q
  else
    let (fts_col, text_col) := FIELD_COLS field
    match search_type with
    | .FTS =>
        let (pname, p, q1) := q.new_param (.pstr txt)
        let sql := fts_col ++ " @@ websearch_to_tsquery(\x27english\x27, :" ++ pname ++ ")"
        { q1 with search_clauses := q1.search_clauses ++ [(sql, p, fts_col)] }
    | .FUZZY =>
        let (pname, p, q1) := q.new_param (.pstr txt)
        { q1 with search_clauses :=
            q1.search_clauses ++ [(":" ++ pname ++ " <% " ++ text_col, p, text_col)] }

/-- Embedding of `downloads_gte`. -/
def SearchQuery.downloads_gte (q : SearchQuery) (n : Int) : SearchQuery :=
  q.filter (fun ph => "downloads >= " ++ ph.headD "") [.pint n]

/-- Embedding of `downloads_lte`. -/
def SearchQuery.downloads_lte (q : SearchQuery) (n : Int) : SearchQuery :=
  q.filter (fun ph => "downloads <= " ++ ph.headD "") [.pint n]

/-- Embedding of `etext`. -/
def SearchQuery.etext (q : SearchQuery) (nr : Int) : SearchQuery :=
  q.filter (fun ph => "book_id = " ++ ph.headD "") [.pint nr]

/-- Embedding of `etexts`. -/
def SearchQuery.etexts (q : SearchQuery) (nrs : List Int) : SearchQuery :=
  q.filter (fun ph => "book_id = ANY(" ++ ph.headD "" ++ ")") [.pintList nrs]

/-- Embedding of `public_domain`: a parameterless filter clause. -/
def SearchQuery.public_domain (q : SearchQuery) : SearchQuery :=
  { q with filters := q.filters ++ [("copyrighted = 0", [])] }

/-- Embedding of `copyrighted`: a parameterless filter clause. -/
def SearchQuery.copyrighted (q : SearchQuery) : SearchQuery :=
  { q with filters := q.filters ++ [("copyrighted = 1", [])] }

/-- Embedding of `text_only`. -/
def SearchQuery.text_only (q : SearchQuery) : SearchQuery :=
  { q with filters := q.filters ++ [("is_audio = false", [])] }

/-- Embedding of `audiobook`. -/
def SearchQuery.audiobook (q : SearchQuery) : SearchQuery :=
  { q with filters := q.filters ++ [("is_audio = true", [])] }

/-- Embedding of `lang` for a plain string code (lowercased). -/
def SearchQuery.lang (q : SearchQuery) (code : String) : SearchQuery :=
  q.filter (fun ph => "lang_codes @> ARRAY[CAST(" ++ ph.headD "" ++ " AS text)]")
    [.pstr (pyLower code)]

/-- Embedding of `author_born_after`. -/
def SearchQuery.author_born_after (q : SearchQuery) (year : Int) : SearchQuery :=
  q.filter (fun ph => "max_author_birthyear >= " ++ ph.headD "") [.pint year]

/-- Embedding of `author_born_before`. -/
def SearchQuery.author_born_before (q : SearchQuery) (year : Int) : SearchQuery :=
  q.filter (fun ph => "min_author_birthyear <= " ++ ph.headD "") [.pint year]

/-- Embedding of `author_died_after`. -/
def SearchQuery.author_died_after (q : SearchQuery) (year : Int) : SearchQuery :=
  q.filter (fun ph => "max_author_deathyear >= " ++ ph.headD "") [.pint year]

/-- Embedding of `author_died_before`. -/
def SearchQuery.author_died_before (q : SearchQuery) (year : Int) : SearchQuery :=
  q.filter (fun ph => "min_author_deathyear <= " ++ ph.headD "") [.pint year]

/-- Embedding of `released_after`. -/
def SearchQuery.released_after (q : SearchQuery) (date : String) : SearchQuery :=
  q.filter (fun ph => "CAST(release_date AS date) >= CAST(" ++ ph.headD "" ++ " AS date)")
    [.pstr date]

/-- Embedding of `released_before`. -/
def SearchQuery.released_before (q : SearchQuery) (date : String) : SearchQuery :=
  q.filter (fun ph => "CAST(release_date AS date) <= CAST(" ++ ph.headD "" ++ " AS date)")
    [.pstr date]

/-- Embedding of `subject_id`. -/
def SearchQuery.subject_id (q : SearchQuery) (sid : Int) : SearchQuery :=
  q.filter (fun ph =>
    "EXISTS (SELECT 1 FROM mn_books_subjects mbs WHERE mbs.fk_books = book_id AND mbs.fk_subjects = "
      ++ ph.headD "" ++ ")") [.pint sid]

/-- Embedding of `bookshelf_id`. -/
def SearchQuery.bookshelf_id (q : SearchQuery) (bid : Int) : SearchQuery :=
  q.filter (fun ph =>
    "EXISTS (SELECT 1 FROM mn_books_bookshelves mbb WHERE mbb.fk_books = book_id AND mbb.fk_bookshelves = "
      ++ ph.headD "" ++ ")") [.pint bid]

/-- Embedding of `author_id`. -/
def SearchQuery.author_id (q : SearchQuery) (aid : Int) : SearchQuery :=
  q.filter (fun ph =>
    "EXISTS (SELECT 1 FROM mn_books_authors mba WHERE mba.fk_books = book_id AND mba.fk_authors = "
      ++ ph.headD "" ++ ")") [.pint aid]

/-- Embedding of `contributor_role`. -/
def SearchQuery.contributor_role (q : SearchQuery) (role : String) : SearchQuery :=
  q.filter (fun ph =>
    "EXISTS (SELECT 1 FROM mn_books_authors mba JOIN roles r ON mba.fk_roles = r.pk WHERE mba.fk_books = book_id AND r.role = "
      ++ ph.headD "" ++ ")") [.pstr role]

/-- Embedding of `where` (the raw-escape hatch): reject any caller-supplied
parameter name carrying the reserved auto-generated prefix, otherwise
append the raw clause unchanged. -/
def SearchQuery.whereRaw (q : SearchQuery) (sql : String)
    (params : List (String × PValue)) : Except String SearchQuery :=
  if params.any (fun kv => strIsPrefixOf "__p" kv.1) then
    .error "Parameter name reserved by search engine: starts with \x27__p\x27"
  else
    .ok { q with filters := q.filters ++ [(sql, params)] }

/-- Embedding of `_params`: merge every search-clause binding, then every
filter-clause binding, into one dict. -/
def SearchQuery.params_dict (q : SearchQuery) : List (String × PValue) :=
  let p1 := q.search_clauses.foldl (fun acc c => dictUpdate acc c.2.1) []
  q.filters.foldl (fun acc f => dictUpdate acc f.2) p1

/-- Embedding of the `_ORDER_COLUMNS` mapping: column expression, default
direction and null-placement rule; keys outside the mapping yield `none`. -/
def ORDER_COLUMNS : OrderBy → Option (String × Option SortDirection × Option String)
  | .DOWNLOADS => some ("downloads", some .DESC, none)
  | .TITLE => some ("title", some .ASC, none)
  | .AUTHOR => some ("all_authors", some .ASC, some "LAST")
  | .RELEASE_DATE => some ("CAST(release_date AS date)", some .DESC, some "LAST")
  | .RANDOM => some ("RANDOM()", none, none)
  | .RELEVANCE => none

/-- Rendering of `direction.value.upper()`.  The `none` arm would be an
`AttributeError` in the source; it is unreachable because the only mapping
entry without a default direction is RANDOM, which is intercepted before
the mapping is consulted, and an explicit direction is always present
otherwise. -/
def sortDirUpper : Option SortDirection → String
  | some .ASC => "ASC"
  | some .DESC => "DESC"
  | none => ""

/-- Embedding of `_order_sql`.  Relevance with at least one search clause
reuses the last-added clause: its ranking column, and its bound text value
with percent signs removed as the `rank_q` parameter; the ranking function
is word-similarity when the clause predicate contains the `<%` operator
(fuzzy mode) and ts_rank_cd otherwise (strict mode), each with downloads
descending as tie-break.  Random emits a random ordering; keys outside the
mapping fall back to downloads descending; mapped keys honour an explicit
direction override and the null-placement rule. -/
def SearchQuery.order_sql (q : SearchQuery) (params : List (String × PValue)) :
    String × List (String × PValue) :=
  if q.order = OrderBy.RELEVANCE ∧ q.search_clauses ≠ [] then
    match q.search_clauses.getLast? with
    | some (sql, p, col) =>
        let val : String := match p.head? with
          | some kv => pvalueStr kv.2
          | none => ""
        let params2 := dictSet params "rank_q" (.pstr (removePercent val))
        if hasSubstrStr sql "<%" then
          ("word_similarity(:rank_q, " ++ col ++ ") DESC, downloads DESC", params2)
        else
          ("ts_rank_cd(" ++ col ++ ", websearch_to_tsquery(\x27english\x27, :rank_q)) DESC, downloads DESC",
           params2)
    | none => ("downloads DESC", params)
  else if q.order = OrderBy.RANDOM then ("RANDOM()", params)
  else
    match ORDER_COLUMNS q.order with
    | none => ("downloads DESC", params)
    | some (col, default_dir, nulls) =>
        let direction := match q.sort_dir with
          | some d => some d
          | none => default_dir
        let clause := col ++ " " ++ sortDirUpper direction
        (match nulls with
         | some n => clause ++ " NULLS " ++ n
         | none => clause, params)

/-- Embedding of the `_SELECT` column list. -/
def SELECT_COLS : String :=
  "book_id, title, all_authors, downloads, CAST(release_date AS text) AS release_date, copyrighted, lang_codes, creator_ids, creator_names, creator_roles, subject_ids, subject_names, bookshelf_ids, bookshelf_names, locc_codes, is_audio, dcmitypes, publisher, summary, credits, reading_level, coverpage, format_filenames, format_filetypes, format_hr_filetypes, format_mediatypes, format_extents"

/-- Embedding of the `_SUBQUERY` column list (newlines and indentation of
the triple-quoted source literal elided; the claims never inspect it). -/
def SUBQUERY_COLS : String :=
  "book_id, title, all_authors, downloads, CAST(release_date AS text) AS release_date, copyrighted, lang_codes, is_audio, creator_ids, creator_names, creator_roles, subject_ids, subject_names, bookshelf_ids, bookshelf_names, dcmitypes, publisher, summary, credits, reading_level, coverpage, format_filenames, format_filetypes, format_hr_filetypes, format_mediatypes, format_extents, max_author_birthyear, min_author_birthyear, max_author_deathyear, min_author_deathyear, locc_codes, tsvec, book_text"

/-- The `" AND ".join` of the search predicates, `None` when there are no
search clauses. -/
def SearchQuery.search_sql_opt (q : SearchQuery) : Option String :=
  if q.search_clauses.isEmpty then none
  else some (String.intercalate " AND " (q.search_clauses.map (·.1)))

/-- The `" AND ".join` of the filter predicates, `None` when there are no
filter clauses. -/
def SearchQuery.filter_sql_opt (q : SearchQuery) : Option String :=
  if q.filters.isEmpty then none
  else some (String.intercalate " AND " (q.filters.map (·.1)))

/-- Embedding of `build`: compile the fetch statement.  Search predicates
filter an inner subquery and structural predicates the outer query when
both kinds are present; `LIMIT` is the page size and
`OFFSET = (page - 1) * page_size`. -/
def SearchQuery.build (q : SearchQuery) : String × List (String × PValue) :=
  let params0 := q.params_dict
  let (order, params) := q.order_sql params0
  let tail := " ORDER BY " ++ order ++ " LIMIT " ++ intStr q.page_size
      ++ " OFFSET " ++ intStr ((q.page - 1) * q.page_size)
  match q.search_sql_opt, q.filter_sql_opt with
  | some s, some f =>
      ("SELECT " ++ SELECT_COLS ++ " FROM (SELECT " ++ SUBQUERY_COLS
        ++ " FROM mv_books_dc WHERE " ++ s ++ ") t WHERE " ++ f ++ tail, params)
  | some s, none =>
      ("SELECT " ++ SELECT_COLS ++ " FROM mv_books_dc WHERE " ++ s ++ tail, params)
  | none, some f =>
      ("SELECT " ++ SELECT_COLS ++ " FROM mv_books_dc WHERE " ++ f ++ tail, params)
  | none, none =>
      ("SELECT " ++ SELECT_COLS ++ " FROM mv_books_dc" ++ tail, params)

/-- Embedding of `build_count`: compile the count statement from the same
conjunctions. -/
def SearchQuery.build_count (q : SearchQuery) : String × List (String × PValue) :=
  let params := q.params_dict
  match q.search_sql_opt, q.filter_sql_opt with
  | some s, some f =>
      ("SELECT COUNT(*) FROM (SELECT " ++ SUBQUERY_COLS
        ++ " FROM mv_books_dc WHERE " ++ s ++ ") t WHERE " ++ f, params)
  | some s, none => ("SELECT COUNT(*) FROM mv_books_dc WHERE " ++ s, params)
  | none, some f => ("SELECT COUNT(*) FROM mv_books_dc WHERE " ++ f, params)
  | none, none => ("SELECT COUNT(*) FROM mv_books_dc", params)

/-- Parameter names bound by the search clauses, in clause order. -/
def SearchQuery.searchBoundNames (q : SearchQuery) : List String :=
  (q.search_clauses.map (fun c => c.2.1.map Prod.fst)).flatten

/-- Parameter names bound by the filter clauses, in clause order. -/
def SearchQuery.filterBoundNames (q : SearchQuery) : List String :=
  (q.filters.map (fun f => f.2.map Prod.fst)).flatten

/-- All parameter names bound by the clauses of a specification, search
clauses first, in clause order.  This is the raw multiset of bindings
before any dict merge, so a duplicated name here is exactly a parameter
collision. -/
def SearchQuery.boundNames (q : SearchQuery) : List String :=
  q.searchBoundNames ++ q.filterBoundNames

/-! ## Embedding of src/search/crosswalks.py -/

/-- Catalog row as consumed by the crosswalk transformers: scalar fields
plus positionally correlated parallel arrays.  A SQL NULL inside an array
is `none`; a NULL array itself and an empty array both denote `[]`, which
is how the transformers treat them (`list(x) if x else []`). -/
structure Row where
  book_id : Int
  title : Option String
  downloads : Option Int
  release_date : Option String
  copyrighted : Option Int
  lang_codes : List (Option String)
  creator_ids : List (Option Int)
  creator_names : List (Option String)
  creator_roles : List (Option String)
  creator_born_floor : List (Option Int)
  creator_born_ceil : List (Option Int)
  creator_died_floor : List (Option Int)
  creator_died_ceil : List (Option Int)
  subject_ids : List (Option Int)
  subject_names : List (Option String)
  bookshelf_ids : List (Option Int)
  bookshelf_names : List (Option String)
  locc_codes : List (Option String)
  is_audio : Bool
  dcmitypes : List (Option String)
  publisher : Option String
  summary : List (Option String)
  credits : List (Option String)
  reading_level : Option String
  coverpage : List (Option String)
  format_filenames : List (Option String)
  format_filetypes : List (Option String)
  format_hr_filetypes : List (Option String)
  format_mediatypes : List (Option String)
  format_extents : List (Option Int)

/-- Python truthiness of an optional string: false for `None` and for the
empty string. -/
def optStrTruthy : Option String → Bool
  | none => false
  | some s => s != ""

/-- Model of `x or ""` on an optional string. -/
def optStrOrEmpty : Option String → String
  | none => ""
  | some s => s

/-- Element access of `zip_longest(..., fillvalue=None)` at index `i` of a
nullable array: out-of-range positions are padded with `None`. -/
def arrGet (l : List (Option α)) (i : Nat) : Option α :=
  (l[i]?).bind id

/-- Embedding of `_gutenberg_url`: empty stays empty, absolute URLs are
preserved, anything else is appended to the fixed base with leading
slashes removed. -/
def gutenbergUrl (path : String) : String :=
  if path = "" then ""
  else if strIsPrefixOf "http://" path || strIsPrefixOf "https://" path then path
  else "https://www.gutenberg.org/" ++ pyLstripSlash path

/-- Embedding of `_estimate_mp3_duration` at the fixed call-site bitrate of
128 kbps: zero for a missing or non-positive size, otherwise
`int(size * 8 / 128000)`.  The Python expression divides floats and
truncates; for the positive sizes involved this is integer floor
division. -/
def estimateMp3Duration (file_size_bytes : Int) : Int :=
  if file_size_bytes ≤ 0 then 0
  else Int.fdiv (file_size_bytes * 8) (128 * 1000)

/-- One entry of `_build_formats`: the positionally correlated file
metadata of a row, with `None` padding where an array is short. -/
structure FormatEntry where
  filename : Option String
  filetype : Option String
  hr_filetype : Option String
  mediatype : Option String
  extent : Option Int
deriving DecidableEq

/-- Embedding of `_build_formats`: zip the five format arrays with `None`
padding and drop entries whose filename is falsy. -/
def buildFormats (row : Row) : List FormatEntry :=
  let n := max row.format_filenames.length (max row.format_filetypes.length
    (max row.format_hr_filetypes.length
      (max row.format_mediatypes.length row.format_extents.length)))
  (List.range n).filterMap (fun i =>
    match arrGet row.format_filenames i with
    | none => none
    | some fn =>
        if fn = "" then none
        else some
          { filename := some fn
            filetype := arrGet row.format_filetypes i
            hr_filetype := arrGet row.format_hr_filetypes i
            mediatype := arrGet row.format_mediatypes i
            extent := arrGet row.format_extents i })

/-- An OPDS link object; `none` models an absent dict key. -/
structure Link where
  rel : String
  href : String
  type : String
  title : Option String
  length : Option Int
deriving DecidableEq

/-- An audiobook reading-order track object; `none` models an absent dict
key. -/
structure Track where
  href : String
  type : String
  bitrate : Int
  duration : Option Int
  title : Option String
deriving DecidableEq

/-- Normalisation of a stored file type as compared against the preference
list: `(f.get("filetype") or "").strip().lower()`. -/
def entryFiletype (f : FormatEntry) : String :=
  pyLower (pyStrip (optStrOrEmpty f.filetype))

/-- Open-access acquisition relation used for every acquisition link. -/
def ACQ_REL : String :=
  "http://opds-spec.org/acquisition/open-access"

/-- The generic web-page acquisition link to the catalog entry. -/
def genericHtmlLink (book_id : Int) : Link :=
  { rel := ACQ_REL
    href := "https://www.gutenberg.org/ebooks/" ++ intStr book_id
    type := "text/html"
    title := none
    length := none }

/-- The acquisition link built for a matched text format: media type
defaulting to the epub media type, byte length only when positive, title
from the human-readable file type when present. -/
def mkTextLink (f : FormatEntry) : Link :=
  { rel := ACQ_REL
    href := gutenbergUrl (optStrOrEmpty f.filename)
    type := (let m := pyStrip (optStrOrEmpty f.mediatype)
             if m = "" then "application/epub+zip" else m)
    title := match f.hr_filetype with
      | some h => if h = "" then none else some h
      | none => none
    length := match f.extent with
      | some e => if 0 < e then some e else none
      | none => none }

/-- The preferred format identifier tried first for text works. -/
def targetFormat : String := "epub3.images"

/-- The fallback format identifiers tried in order after the target. -/
def fallbackFormats : List String :=
  ["epub.images", "epub.noimages", "kindle.images", "pdf.images", "pdf.noimages", "html"]

/-- Inner loop of the text acquisition selection: the first row format
with a truthy filename whose normalised file type equals the tried
identifier. -/
def findFormatLink (formats : List FormatEntry) (try_format : String) : Option Link :=
  match formats with
  | [] => none
  | f :: rest =>
      if !optStrTruthy f.filename then findFormatLink rest try_format
      else if entryFiletype f ≠ try_format then findFormatLink rest try_format
      else some (mkTextLink f)

/-- Outer loop of the text acquisition selection: try each format
identifier in preference order and stop at the first that produced a
link. -/
def textLinksLoop (formats : List FormatEntry) : List String → List Link
  | [] => []
  | t :: ts =>
      match findFormatLink formats t with
      | some l => [l]
      | none => textLinksLoop formats ts

/-- Mp3 test of the audio branch: a truthy filename whose normalised file
type is `mp3`. -/
def isMp3Entry (f : FormatEntry) : Bool :=
  optStrTruthy f.filename && entryFiletype f == "mp3"

/-- Part-number extraction, the regex `-(\d+)\.mp3$` with IGNORECASE: a
trailing `.mp3` (letters case-insensitive), preceded by a maximal nonempty
digit run, preceded by a hyphen; the digit run is returned verbatim
(leading zeros preserved). -/
def parseMp3Part (fn : String) : Option String :=
  match fn.data.reverse with
  | '3' :: p :: m :: '.' :: rest =>
      if (p == 'p' || p == 'P') && (m == 'm' || m == 'M') then
        let digits := rest.takeWhile Char.isDigit
        if digits.isEmpty then none
        else
          match rest.drop digits.length with
          | '-' :: _ => some (String.mk digits.reverse)
          | _ => none
      else none
  | _ => none

/-- The track object built for one matched audio file. -/
def mkAudioTrack (f : FormatEntry) : Track :=
  { href := gutenbergUrl (optStrOrEmpty f.filename)
    type := "audio/mpeg"
    bitrate := 128
    duration := match f.extent with
      | some e => if 0 < e then some (estimateMp3Duration e) else none
      | none => none
    title := match parseMp3Part (optStrOrEmpty f.filename) with
      | some digits => some ("Part " ++ digits)
      | none => none }

/-- Audio track assembly loop: one track per mp3-matched format in row
order, accumulating the total of the durations that were set. -/
def audioLoop : List FormatEntry → List Track × Int
  | [] => ([], 0)
  | f :: rest =>
      if isMp3Entry f then
        let t := mkAudioTrack f
        let (ts, tot) := audioLoop rest
        (t :: ts, (match t.duration with | some d => d | none => 0) + tot)
      else audioLoop rest

/-- Sort key of the reading order: the track title with `""` default, as in
`t.get("title", "")`. -/
def trackKey (t : Track) : String :=
  match t.title with
  | some s => s
  | none => ""

/-- Lexicographic order on character lists by code point: exactly the
string comparison Python `list.sort` performs on the title keys. -/
def listCharLe : List Char → List Char → Bool
  | [], _ => true
  | _ :: _, [] => false
  | a :: as, b :: bs =>
      if a < b then true
      else if b < a then false
      else listCharLe as bs

/-- Comparison under which the reading order is sorted: ascending by the
title string.  Python `list.sort(key=...)` is a stable sort under exactly
this key order, as is the insertion sort used below. -/
def trackLe (a b : Track) : Prop :=
  listCharLe (trackKey a).data (trackKey b).data = true

instance : DecidableRel trackLe := fun a b =>
  inferInstanceAs (Decidable (_ = true))

instance : IsTotal Track trackLe :=
  ⟨fun a b => by
    unfold trackLe
    generalize (trackKey a).data = x
    generalize (trackKey b).data = y
    induction x generalizing y with
    | nil => exact Or.inl rfl
    | cons c cs ih =>
        cases y with
        | nil => exact Or.inr rfl
        | cons d ds =>
            rcases lt_trichotomy c d with h | h | h
            · exact Or.inl (by simp [listCharLe, h])
            · subst h
              rcases ih ds with h2 | h2
              · exact Or.inl (by simp [listCharLe, lt_irrefl, h2])
              · exact Or.inr (by simp [listCharLe, lt_irrefl, h2])
            · exact Or.inr (by simp [listCharLe, h])⟩

instance : IsTrans Track trackLe :=
  ⟨fun a b c h1 h2 => by
    unfold trackLe at h1 h2 ⊢
    revert h1 h2
    generalize (trackKey a).data = x
    generalize (trackKey b).data = y
    generalize (trackKey c).data = z
    induction x generalizing y z with
    | nil => intro h1 h2; rfl
    | cons u us ih =>
        intro h1 h2
        cases y with
        | nil => exact absurd h1 (by simp [listCharLe])
        | cons v vs =>
            cases z with
            | nil => exact absurd h2 (by simp [listCharLe])
            | cons w ws =>
                by_cases huv : u < v
                · by_cases hvw : v < w
                  · simp [listCharLe, lt_trans huv hvw]
                  · by_cases hwv : w < v
                    · rw [listCharLe, if_neg hvw, if_pos hwv] at h2
                      cases h2
                    · have hvw2 : v = w := le_antisymm (not_lt.mp hwv) (not_lt.mp hvw)
                      subst hvw2
                      simp [listCharLe, huv]
                · by_cases hvu : v < u
                  · rw [listCharLe, if_neg huv, if_pos hvu] at h1
                    cases h1
                  · have huv2 : u = v := le_antisymm (not_lt.mp hvu) (not_lt.mp huv)
                    subst huv2
                    rw [listCharLe, if_neg huv, if_neg huv] at h1
                    by_cases hvw : u < w
                    · simp [listCharLe, hvw]
                    · by_cases hwv : w < u
                      · rw [listCharLe, if_neg hvw, if_pos hwv] at h2
                        cases h2
                      · have hvw2 : u = w := le_antisymm (not_lt.mp hwv) (not_lt.mp hvw)
                        subst hvw2
                        rw [listCharLe, if_neg hvw, if_neg hvw] at h2 ⊢
                        exact ih vs ws h1 h2⟩

/-- The `self` manifest link emitted for every audio work. -/
def selfLinkAudio (book_id : Int) : Link :=
  { rel := "self"
    href := "https://www.gutenberg.org/ebooks/" ++ intStr book_id ++ ".audiobook"
    type := "application/audiobook+json"
    title := none
    length := none }

/-- Model of `str.endswith`. -/
def strEndsWith (s suffix : String) : Bool :=
  suffix.data.isSuffixOf s.data

/-- Bundled-archive scan of the audio branch: the first format whose
filename ends in `-mp3.zip` or `_mp3.zip`, rendered as a zip acquisition
link with its optional byte length. -/
def audioZipScan : List FormatEntry → Option Link
  | [] => none
  | f :: rest =>
      let fn := optStrOrEmpty f.filename
      if strEndsWith fn "-mp3.zip" || strEndsWith fn "_mp3.zip" then
        some
          { rel := ACQ_REL
            href := gutenbergUrl fn
            type := "application/zip"
            title := some "Download all MP3s (ZIP)"
            length := match f.extent with
              | some e => if 0 < e then some e else none
              | none => none }
      else audioZipScan rest

/-- Modelled portion of the OPDS publication entry: the acquisition links,
the reading order and the work-level duration (`metadata["duration"]`,
absent when no positive total exists).  The remaining metadata block,
cover images and resources are not consulted by any claim and are not
modelled. -/
structure OpdsOut where
  duration : Option Int
  links : List Link
  readingOrder : List Track
deriving DecidableEq

/-- Per-key field formatting applied to a link dict by the
`format_dict_result` decorator: plain string values are stripped and the
`title` key passes through the full normalizer. -/
def formatLink (l : Link) : Link :=
  { rel := format_field "rel" l.rel
    href := format_field "href" l.href
    type := format_field "type" l.type
    title := l.title.map (format_field "title")
    length := l.length }

/-- Per-key field formatting applied to a reading-order track dict by the
`format_dict_result` decorator. -/
def formatTrack (t : Track) : Track :=
  { href := format_field "href" t.href
    type := format_field "type" t.type
    bitrate := t.bitrate
    duration := t.duration
    title := t.title.map (format_field "title") }

/-- Embedding of `crosswalk_opds` restricted to the modelled fields.  Audio
works assemble a reading order (one track per mp3 file, sorted ascending by
the title-string key), total the track durations, and emit the self link
plus either the bundled zip archive or the generic web-page link.  Text
works emit the first preference-order format match, or the generic
web-page link when nothing matched (`if not links` in the source; for
audio works the self link makes that fallback unreachable).  The decorator
`format_dict_result` then formats every string field by key. -/
def crosswalk_opds (row : Row) : OpdsOut :=
  let formats := buildFormats row
  if row.is_audio then
    let (tracks, total_duration) := audioLoop formats
    let reading_order := List.insertionSort trackLe tracks
    let links0 := [selfLinkAudio row.book_id]
    let links := match audioZipScan formats with
      | some zl => links0 ++ [zl]
      | none => links0 ++ [genericHtmlLink row.book_id]
    { duration := if 0 < total_duration then some total_duration else none
      links := links.map formatLink
      readingOrder := reading_order.map formatTrack }
  else
    let links0 := textLinksLoop formats (targetFormat :: fallbackFormats)
    let links := if links0 = [] then [genericHtmlLink row.book_id] else links0
    { duration := none
      links := links.map formatLink
      readingOrder := [] }

/-- Language code-to-label table of the `Language` enumeration, used by
`crosswalk_pg` through `LANGUAGE_LABELS`. -/
def LANGUAGE_LABELS : List (String × String) :=
  [("en", "English"), ("af", "Afrikaans"), ("ale", "Aleut"), ("ang", "Old English"),
   ("ar", "Arabic"), ("arp", "Arapaho"), ("bg", "Bulgarian"), ("bgs", "Basa Banyumasan"),
   ("bo", "Tibetan"), ("br", "Breton"), ("brx", "Bodo"), ("ca", "Catalan"),
   ("ceb", "Cebuano"), ("cs", "Czech"), ("csb", "Kashubian"), ("cy", "Welsh"),
   ("da", "Danish"), ("de", "German"), ("el", "Greek"), ("enm", "Middle English"),
   ("eo", "Esperanto"), ("es", "Spanish"), ("et", "Estonian"), ("fa", "Persian"),
   ("fi", "Finnish"), ("fr", "French"), ("fur", "Friulian"), ("fy", "Western Frisian"),
   ("ga", "Irish"), ("gl", "Galician"), ("gla", "Scottish Gaelic"), ("grc", "Ancient Greek"),
   ("hai", "Haida"), ("he", "Hebrew"), ("hu", "Hungarian"), ("ia", "Interlingua"),
   ("ilo", "Iloko"), ("is", "Icelandic"), ("it", "Italian"), ("iu", "Inuktitut"),
   ("ja", "Japanese"), ("kha", "Khasi"), ("kld", "Klamath-Modoc"), ("ko", "Korean"),
   ("la", "Latin"), ("lt", "Lithuanian"), ("mi", "Maori"), ("myn", "Mayan Languages"),
   ("nah", "Nahuatl"), ("nai", "North American Indian"), ("nap", "Neapolitan"),
   ("nav", "Navajo"), ("nl", "Dutch"), ("no", "Norwegian"), ("oc", "Occitan"),
   ("oji", "Ojibwa"), ("pl", "Polish"), ("pt", "Portuguese"), ("rmq", "Romani"),
   ("ro", "Romanian"), ("ru", "Russian"), ("sa", "Sanskrit"), ("sco", "Scots"),
   ("sl", "Slovenian"), ("sr", "Serbian"), ("sv", "Swedish"), ("te", "Telugu"),
   ("tl", "Tagalog"), ("yi", "Yiddish"), ("zh", "Chinese")]

/-- Label lookup `LANGUAGE_LABELS.get(code, code)`. -/
def languageLabel (code : String) : String :=
  match LANGUAGE_LABELS.find? (fun kv => kv.1 == code) with
  | some kv => kv.2
  | none => code

/-- One contributor record assembled by `_build_creators`. -/
structure Contributor where
  id : Option Int
  name : String
  role : String
  born_floor : Option Int
  born_ceil : Option Int
  died_floor : Option Int
  died_ceil : Option Int
deriving DecidableEq

/-- Embedding of `_build_creators`: zip the seven creator arrays with
`None` padding, drop entries with a falsy name, and default a falsy role
to `Author`. -/
def build_creators (row : Row) : List Contributor :=
  let n := max row.creator_names.length (max row.creator_roles.length
    (max row.creator_ids.length (max row.creator_born_floor.length
      (max row.creator_born_ceil.length
        (max row.creator_died_floor.length row.creator_died_ceil.length)))))
  (List.range n).filterMap (fun i =>
    match arrGet row.creator_names i with
    | none => none
    | some name =>
        if name = "" then none
        else some
          { id := arrGet row.creator_ids i
            name := name
            role := (match arrGet row.creator_roles i with
              | some r => if r = "" then "Author" else r
              | none => "Author")
            born_floor := arrGet row.creator_born_floor i
            born_ceil := arrGet row.creator_born_ceil i
            died_floor := arrGet row.creator_died_floor i
            died_ceil := arrGet row.creator_died_ceil i })

/-- Embedding of `_build_subjects`: id/name pairs for truthy names. -/
def build_subjects (row : Row) : List (Option Int × String) :=
  let n := max row.subject_names.length row.subject_ids.length
  (List.range n).filterMap (fun i =>
    match arrGet row.subject_names i with
    | none => none
    | some name =>
        if name = "" then none else some (arrGet row.subject_ids i, name))

/-- Embedding of `_build_bookshelves`: id/name pairs for truthy names. -/
def build_bookshelves (row : Row) : List (Option Int × String) :=
  let n := max row.bookshelf_names.length row.bookshelf_ids.length
  (List.range n).filterMap (fun i =>
    match arrGet row.bookshelf_names i with
    | none => none
    | some name =>
        if name = "" then none else some (arrGet row.bookshelf_ids i, name))

/-- One file entry of the legacy record. -/
structure PgFile where
  filename : Option String
  type : Option String
  size : Option Int
deriving DecidableEq

/-- Legacy bibliographic record emitted by `crosswalk_pg`.  The `format`
key of the source holds a `ContributorFormat` closure over the contributor
list, which the formatting decorator passes through untouched; it is
represented by the contributor list itself. -/
structure PgOut where
  ebook_no : Int
  title : Option String
  contributors : List Contributor
  language : List (String × String)
  subjects : List String
  bookshelves : List String
  release_date : Option String
  downloads_last_30_days : Option Int
  files : List PgFile
  cover_url : Option String
  format : List Contributor
deriving DecidableEq

/-- Per-key field formatting applied to a contributor dict by the
`format_dict_result` decorator: the `name` key passes the full normalizer,
the `role` key is merely stripped, ints pass through. -/
def formatContributor (c : Contributor) : Contributor :=
  { c with
    name := format_field "name" c.name
    role := format_field "role" c.role }

/-- Embedding of `crosswalk_pg` followed by its `format_dict_result`
decoration: flattened subject/bookshelf name lists, code/label language
pairs, the file listing and the first cover-page entry, each string field
formatted under its dict key (`title`, `name`, `subjects` and
`bookshelves` pass the full normalizer, other strings are stripped). -/
def crosswalk_pg (row : Row) : PgOut :=
  let creators := build_creators row
  let subjects := (build_subjects row).map (·.2)
  let bookshelves := (build_bookshelves row).map (·.2)
  let language := (row.lang_codes.filterMap id).filterMap (fun code =>
    if code = "" then none else some (code, languageLabel code))
  let formats := buildFormats row
  { ebook_no := row.book_id
    title := row.title.map (format_field "title")
    contributors := creators.map formatContributor
    language := language.map (fun kv =>
      (format_field "code" kv.1, format_field "name" kv.2))
    subjects := subjects.map (format_field "subjects")
    bookshelves := bookshelves.map (format_field "bookshelves")
    release_date := row.release_date.map (format_field "release_date")
    downloads_last_30_days := row.downloads
    files := formats.map (fun f =>
      { filename := f.filename.map (format_field "filename")
        type := f.mediatype.map (format_field "type")
        size := f.extent })
    cover_url := (arrGet row.coverpage 0).map (format_field "cover_url")
    format := creators.map formatContributor }

/-- Sum of the two renderer output shapes, the value type of the dispatch
table. -/
inductive RowOutput
  | pg (r : PgOut)
  | opds (r : OpdsOut)
deriving DecidableEq

/-- Embedding of `CROSSWALK_MAP`: the dispatch table holds entries for the
PG and OPDS members only; every other enumeration member is absent
(a `KeyError` on lookup). -/
def CROSSWALK_MAP : Crosswalk → Option (Row → RowOutput)
  | Crosswalk.PG => some (fun r => RowOutput.pg (crosswalk_pg r))
  | Crosswalk.OPDS => some (fun r => RowOutput.opds (crosswalk_opds r))
  | _ => none

/-! ## Embedding of the FullTextSearch executor -/

/-- Embedding of `FullTextSearch.query`: a fresh builder whose crosswalk is
the given member; the default argument of the source is `Crosswalk.FULL`. -/
def FullTextSearch.query (crosswalk : Crosswalk) : SearchQuery :=
  { SearchQuery.init with cw := crosswalk }

/-- Default crosswalk of `FullTextSearch.query()` when called with no
argument. -/
def queryDefaultCrosswalk : Crosswalk := Crosswalk.FULL

/-- Embedding of `FullTextSearch._transform`: a registered custom
transformer serves the CUSTOM member; otherwise the dispatch table is
indexed, which raises a lookup error for members without an entry. -/
def FullTextSearch.transform (custom : Option (Row → RowOutput))
    (cw : Crosswalk) (row : Row) : Except String RowOutput :=
  match custom, cw with
  | some f, Crosswalk.CUSTOM => .ok (f row)
  | _, _ =>
      match CROSSWALK_MAP cw with
      | some f => .ok (f row)
      | none => .error "KeyError"

/-- Pagination arithmetic of `FullTextSearch.execute`: the total-page count
with floor division (`//`, modelled by flooring integer division) and the
requested page clamped into the valid range after the count query.  Returns
(total_pages, clamped page). -/
def FullTextSearch.execute_paging (total : Int) (page page_size : Int) : Int × Int :=
  let total_pages := max 1 (Int.fdiv (total + page_size - 1) page_size)
  (total_pages, max 1 (min page total_pages))

/-- The result envelope returned by `execute`. -/
structure ResultPage where
  results : List RowOutput
  page : Int
  page_size : Int
  total : Int
  total_pages : Int

/-- Embedding of `FullTextSearch.execute` with the backing store
abstracted: `total` is the value of the count query and `rows` the rows
the fetch query (built from the clamped page) returned.  Each row passes
through the selected transformer; a lookup error aborts the whole call. -/
def FullTextSearch.execute (custom : Option (Row → RowOutput)) (q : SearchQuery)
    (total : Int) (rows : List Row) : Except String ResultPage :=
  let (total_pages, page) := FullTextSearch.execute_paging total q.page q.page_size
  match rows.mapM (FullTextSearch.transform custom q.cw) with
  | .ok results =>
      .ok { results := results, page := page, page_size := q.page_size,
            total := total, total_pages := total_pages }
  | .error e => .error e

/-! ## Embedding of the pagination accessor (src/opds/opds.py) -/

/-- A value handed to `_parse_pagination`: an int, a string, or `None`. -/
inductive PyVal
  | pint (i : Int)
  | pstr (s : String)
  | pnone
deriving DecidableEq

/-- Recogniser of the digit tail of a Python int literal: digits with
single underscores allowed between digits. -/
def pyIntDigitsTail : List Char → Bool
  | [] => true
  | '_' :: c :: rest => c.isDigit && pyIntDigitsTail rest
  | '_' :: [] => false
  | c :: rest => c.isDigit && pyIntDigitsTail rest

/-- Numeric value of a digit list with underscores removed. -/
def digitsVal (l : List Char) : Nat :=
  (l.filter (fun c => c != '_')).foldl (fun acc c => acc * 10 + (c.toNat - 48)) 0

/-- Model of Python `int(x)`: identity on ints, decimal parsing on strings
(optional surrounding whitespace, optional sign, ASCII digits with
underscore separators), a `TypeError` on `None`.  Unicode digit forms are
not modelled. -/
def pyToInt : PyVal → Except String Int
  | .pint i => .ok i
  | .pnone => .error "TypeError"
  | .pstr s =>
      let t := pyStripList s.data
      let (neg, ds) := match t with
        | '-' :: rest => (true, rest)
        | '+' :: rest => (false, rest)
        | rest => (false, rest)
      match ds with
      | [] => .error "ValueError"
      | c :: rest =>
          if c.isDigit && pyIntDigitsTail rest then
            let v : Int := Int.ofNat (digitsVal (c :: rest))
            .ok (if neg then -v else v)
          else .error "ValueError"

/-- Embedding of `_parse_pagination`: clamp numeric input (page floored at
1, limit clamped into [1, 100]); any `ValueError` or `TypeError` from
either conversion yields page 1 with the caller-supplied default limit. -/
def parse_pagination (page limit : PyVal) (default_limit : Int) : Int × Int :=
  match pyToInt page, pyToInt limit with
  | .ok p, .ok l => (max 1 p, max 1 (min 100 l))
  | _, _ => (1, default_limit)

/-! ## Embedding of get_top_subjects_for_query -/

/-- A row of the subjects reference table. -/
structure SubjectRow where
  pk : Int
  subject : String
deriving DecidableEq

/-- A row of the subject-membership join table `mn_books_subjects`. -/
structure SubjectLink where
  fk_books : Int
  fk_subjects : Int
deriving DecidableEq

/-- Comparison under which the aggregated facet rows are ordered:
descending by count (`ORDER BY count DESC`; ties are left in an
unspecified relative order by the database, and any order satisfying this
relation is a correct model). -/
def facetGe (a b : Int × String × Nat) : Prop :=
  b.2.2 ≤ a.2.2

instance : DecidableRel facetGe := fun a b => inferInstanceAs (Decidable (_ ≤ _))

instance : IsTotal (Int × String × Nat) facetGe := ⟨fun a b => le_total b.2.2 a.2.2⟩

instance : IsTrans (Int × String × Nat) facetGe := ⟨fun _ _ _ h1 h2 => le_trans h2 h1⟩

/-- Relational semantics of the fixed SQL statement executed by
`get_top_subjects_for_query`, with the backing store abstracted:
`matched_order` is the sequence of book ids satisfying the
specification's WHERE clauses in its ORDER BY order.  The CTE samples the
first `max_books` of them, the joins produce one (subject pk, subject
name) tuple per membership of a sampled book, `GROUP BY` with `COUNT(*)`
tallies each subject, and the result is ordered by count descending and
cut to `limit`. -/
def topSubjectsSql (matched_order : List Int) (subjects : List SubjectRow)
    (links : List SubjectLink) (limit max_books : Int) : List (Int × String × Nat) :=
  let sampled := matched_order.take max_books.toNat
  let joined := sampled.flatMap (fun b =>
    (links.filter (fun l => l.fk_books == b)).flatMap (fun l =>
      (subjects.filter (fun s => s.pk == l.fk_subjects)).map (fun s => (s.pk, s.subject))))
  let keys := joined.dedup
  let grouped := keys.map (fun k => (k.1, k.2, (joined.filter (fun j => j == k)).length))
  (List.insertionSort facetGe grouped).take limit.toNat

/-- Embedding of `get_top_subjects_for_query`: clamp the book sample size
into [1, 5000] and the returned row count into [1, 100], then run the
aggregation statement. -/
def get_top_subjects_for_query (matched_order : List Int)
    (subjects : List SubjectRow) (links : List SubjectLink)
    (limit max_books : Int) : List (Int × String × Nat) :=
  let max_books2 := max 1 (min 5000 max_books)
  let limit2 := max 1 (min 100 limit)
  topSubjectsSql matched_order subjects links limit2 max_books2

/-! ## Remaining fixed-vocabulary filter methods and the operation alphabet -/

/-- Model of Python `str.upper()` restricted to ASCII letters. -/
def pyUpper (s : String) : String :=
  String.mk (s.data.map Char.toUpper)

/-- Embedding of `locc` for a plain string code (uppercased, suffixed with
the LIKE wildcard). -/
def SearchQuery.locc (q : SearchQuery) (code : String) : SearchQuery :=
  q.filter (fun ph =>
    "EXISTS (SELECT 1 FROM mn_books_loccs mbl JOIN loccs lc ON lc.pk = mbl.fk_loccs WHERE mbl.fk_books = book_id AND lc.pk LIKE "
      ++ ph.headD "" ++ ")") [.pstr (pyUpper code ++ "%")]

/-- Embedding of `file_type` for a plain string media type. -/
def SearchQuery.file_type (q : SearchQuery) (ft : String) : SearchQuery :=
  q.filter (fun ph =>
    "EXISTS (SELECT 1 FROM files f JOIN filetypes ft ON f.fk_filetypes = ft.pk WHERE f.fk_books = book_id AND f.obsoleted = 0 AND f.diskstatus = 0 AND ft.mediatype = "
      ++ ph.headD "" ++ ")") [.pstr ft]

/-- Embedding of `encoding` for a plain string encoding value. -/
def SearchQuery.encoding (q : SearchQuery) (enc : String) : SearchQuery :=
  q.filter (fun ph =>
    "EXISTS (SELECT 1 FROM files f WHERE f.fk_books = book_id AND f.obsoleted = 0 AND f.diskstatus = 0 AND f.fk_encodings = "
      ++ ph.headD "" ++ ")") [.pstr enc]

/-- The fixed builder vocabulary: every public method of `SearchQuery`
except the raw `where` escape hatch, as an operation alphabet over which
sequences of builder calls are quantified. -/
inductive BuilderOp
  | search (txt : String) (field : SearchField) (st : SearchType)
  | etext (nr : Int)
  | etexts (nrs : List Int)
  | downloads_gte (n : Int)
  | downloads_lte (n : Int)
  | public_domain
  | copyrighted
  | lang (code : String)
  | text_only
  | audiobook
  | author_born_after (y : Int)
  | author_born_before (y : Int)
  | author_died_after (y : Int)
  | author_died_before (y : Int)
  | released_after (d : String)
  | released_before (d : String)
  | locc (code : String)
  | contributor_role (r : String)
  | file_type (ft : String)
  | author_id (i : Int)
  | subject_id (i : Int)
  | bookshelf_id (i : Int)
  | encoding (e : String)
  | order_by (o : OrderBy) (d : Option SortDirection)
  | set_page (p : Int)
  | set_page_and_size (p s : Int)
  | crosswalk (c : Crosswalk)

/-- Application of one builder call. -/
def applyOp (q : SearchQuery) : BuilderOp → SearchQuery
  | .search txt f st => q.search txt f st
  | .etext n => q.etext n
  | .etexts ns => q.etexts ns
  | .downloads_gte n => q.downloads_gte n
  | .downloads_lte n => q.downloads_lte n
  | .public_domain => q.public_domain
  | .copyrighted => q.copyrighted
  | .lang c => q.lang c
  | .text_only => q.text_only
  | .audiobook => q.audiobook
  | .author_born_after y => q.author_born_after y
  | .author_born_before y => q.author_born_before y
  | .author_died_after y => q.author_died_after y
  | .author_died_before y => q.author_died_before y
  | .released_after d => q.released_after d
  | .released_before d => q.released_before d
  | .locc c => q.locc c
  | .contributor_role r => q.contributor_role r
  | .file_type ft => q.file_type ft
  | .author_id i => q.author_id i
  | .subject_id i => q.subject_id i
  | .bookshelf_id i => q.bookshelf_id i
  | .encoding e => q.encoding e
  | .order_by o d => q.order_by o d
  | .set_page p => q.setPage p
  | .set_page_and_size p s => q.setPageAndSize p s
  | .crosswalk c => q.crosswalk c

/-- Application of a sequence of builder calls, first call first. -/
def applyOps (q : SearchQuery) (ops : List BuilderOp) : SearchQuery :=
  ops.foldl applyOp q

/-- Well-formedness of the bound parameter names of a specification: they
are auto-generated names of pairwise distinct counter values, each below
the current counter. -/
def paramNamesOk (q : SearchQuery) : Prop :=
  ∃ ns1 ns2 : List Nat, (ns1 ++ ns2).Nodup ∧
    (∀ i ∈ ns1 ++ ns2, i < q.param_counter) ∧
    q.searchBoundNames = ns1.map paramName ∧
    q.filterBoundNames = ns2.map paramName

/-- Numeric part number carried by a reading-order track title of the form
`Part <digits>`. -/
def trackPartNum (t : Track) : Option Nat :=
  match t.title with
  | some s =>
      match s.data with
      | 'P' :: 'a' :: 'r' :: 't' :: ' ' :: ds =>
          if ds ≠ [] ∧ ds.all Char.isDigit then some (digitsVal ds) else none
      | _ => none
  | none => none

/-- Numeric part numbers of a track list, in list order. -/
def partNums (l : List Track) : List Nat :=
  l.filterMap trackPartNum

/-- Helper evaluator for decimal digit lists (most significant first),
used to recover the number a digit rendering denotes. -/
def decimalVal (l : List Char) : Nat :=
  l.foldl (fun acc c => acc * 10 + (c.toNat - 48)) 0

/-- A concrete non-audio row whose only formats are a plain text file and
a PDF with images, the acquisition-fallback scenario of the
specification. -/
def sampleTextRow : Row :=
  { book_id := 1342
    title := some "Pride and Prejudice"
    downloads := some 50000
    release_date := some "1998-06-01"
    copyrighted := some 0
    lang_codes := [some "en"]
    creator_ids := [some 68]
    creator_names := [some "Austen, Jane"]
    creator_roles := [some "Author"]
    creator_born_floor := [some 1775]
    creator_born_ceil := [some 1775]
    creator_died_floor := [some 1817]
    creator_died_ceil := [some 1817]
    subject_ids := [some 1]
    subject_names := [some "Love stories"]
    bookshelf_ids := []
    bookshelf_names := []
    locc_codes := [some "PR"]
    is_audio := false
    dcmitypes := [some "Text"]
    publisher := some "Project Gutenberg"
    summary := []
    credits := []
    reading_level := none
    coverpage := []
    format_filenames := [some "files/1342/1342-0.txt", some "files/1342/1342.pdf"]
    format_filetypes := [some "txt", some "pdf.images"]
    format_hr_filetypes := [some "Plain Text UTF-8", some "PDF"]
    format_mediatypes := [some "text/plain", some "application/pdf"]
    format_extents := [some 100, some 5000] }

/-- A concrete audio row with two mp3 tracks whose filename part numbers
are 10 and 2, so that numeric and title-string orderings disagree. -/
def sampleAudioRow : Row :=
  { sampleTextRow with
    is_audio := true
    format_filenames := [some "audio/a-10.mp3", some "audio/a-2.mp3"]
    format_filetypes := [some "mp3", some "mp3"]
    format_hr_filetypes := [none, none]
    format_mediatypes := [some "audio/mpeg", some "audio/mpeg"]
    format_extents := [some 1600000, some 3200000] }

/-! ## Helper lemmas -/

theorem digitChar_val : ∀ d, d < 10 → (Nat.digitChar d).toNat - 48 = d := by decide

theorem digitChar_isDigit : ∀ d, d < 10 → (Nat.digitChar d).isDigit = true := by decide

theorem decimalVal_append_singleton (l : List Char) (c : Char) :
    decimalVal (l ++ [c]) = decimalVal l * 10 + (c.toNat - 48) := by
  simp [decimalVal, List.foldl_append]

theorem natDigitsRevAux_val : ∀ fuel n, n ≤ fuel →
    decimalVal (natDigitsRevAux fuel n).reverse = n := by
  intro fuel
  induction fuel with
  | zero =>
      intro n hn
      have h0 : n = 0 := Nat.le_zero.mp hn
      subst h0
      decide
  | succ f ih =>
      intro n hn
      by_cases h : n < 10
      · simp only [natDigitsRevAux, h, if_true, List.reverse_singleton]
        have := digitChar_val n h
        simp [decimalVal]
        omega
      · simp only [natDigitsRevAux, h, if_false, List.reverse_cons]
        rw [decimalVal_append_singleton]
        have hdiv : n / 10 ≤ f := by omega
        rw [ih (n / 10) hdiv]
        have := digitChar_val (n % 10) (Nat.mod_lt n (by omega))
        omega

theorem decimalStr_inj {m n : Nat} (h : decimalStr m = decimalStr n) : m = n := by
  unfold decimalStr at h
  have hd : (natDigitsRevAux m m).reverse = (natDigitsRevAux n n).reverse := by
    injection h
  have h2 : decimalVal (natDigitsRevAux m m).reverse
      = decimalVal (natDigitsRevAux n n).reverse := by rw [hd]
  rwa [natDigitsRevAux_val m m le_rfl, natDigitsRevAux_val n n le_rfl] at h2

theorem natDigitsRevAux_digits : ∀ fuel n c, c ∈ natDigitsRevAux fuel n →
    c.isDigit = true := by
  intro fuel
  induction fuel with
  | zero =>
      intro n c hc
      simp only [natDigitsRevAux, List.mem_singleton] at hc
      subst hc
      exact digitChar_isDigit (n % 10) (Nat.mod_lt n (by omega) |>.trans_le (by omega))
  | succ f ih =>
      intro n c hc
      by_cases h : n < 10
      · simp only [natDigitsRevAux, h, if_true, List.mem_singleton] at hc
        subst hc
        exact digitChar_isDigit n h
      · simp only [natDigitsRevAux, h, if_false, List.mem_cons] at hc
        rcases hc with hc | hc
        · subst hc
          exact digitChar_isDigit (n % 10) (Nat.mod_lt n (by omega))
        · exact ih (n / 10) c hc

theorem paramName_inj {m n : Nat} (h : paramName m = paramName n) : m = n := by
  unfold paramName at h
  have hd := congrArg String.data h
  simp only [String.data_append] at hd
  have h2 : (decimalStr m).data = (decimalStr n).data :=
    List.append_cancel_left hd
  exact decimalStr_inj (String.ext h2)

theorem paramName_ne_rank_q (n : Nat) : paramName n ≠ "rank_q" := by
  intro h
  have hd := congrArg String.data h
  simp only [paramName, String.data_append] at hd
  have : ("__p".data ++ (decimalStr n).data).head? = ("rank_q".data).head? := by rw [hd]
  simp at this

theorem hasSubstr_cons (c : Char) (t pat : List Char) :
    hasSubstr (c :: t) pat = (pat.isPrefixOf (c :: t) || hasSubstr t pat) := by
  rfl

theorem hasSubstr_append_right (s t pat : List Char) (h : hasSubstr t pat = true) :
    hasSubstr (s ++ t) pat = true := by
  induction s with
  | nil => simpa using h
  | cons c cs ih =>
      rw [List.cons_append, hasSubstr_cons]
      simp [ih]

theorem hasSubstr_eq_false {l pat : List Char} {c : Char}
    (hpat : pat.head? = some c) (hc : c ∉ l) : hasSubstr l pat = false := by
  induction l with
  | nil =>
      cases pat with
      | nil => simp at hpat
      | cons p ps => rfl
  | cons d ds ih =>
      rw [hasSubstr_cons]
      have hcd : c ≠ d := fun he => hc (he ▸ List.mem_cons_self d ds)
      have hcds : c ∉ ds := fun he => hc (List.mem_cons_of_mem d he)
      rw [ih hcds]
      cases pat with
      | nil => simp at hpat
      | cons p ps =>
          have hp : p = c := by simpa using hpat
          subst hp
          simp [List.isPrefixOf, hcd, BEq.symm_false]

theorem fdiv_pred_eq_ceil (a b : Int) (hb : 0 < b) :
    Int.fdiv (a + b - 1) b = ⌈(a : ℚ) / (b : ℚ)⌉ := by
  rw [Int.fdiv_eq_ediv _ (Int.le_of_lt hb)]
  have hbq : (0 : ℚ) < (b : ℚ) := by exact_mod_cast hb
  symm
  rw [Int.ceil_eq_iff]
  constructor
  · rw [lt_div_iff₀ hbq]
    have h1 : ((a + b - 1) / b) * b ≤ a + b - 1 :=
      (Int.le_ediv_iff_mul_le hb).mp le_rfl
    have h2 : ((a + b - 1) / b - 1) * b < a := by nlinarith
    calc ((((a + b - 1) / b : Int) : ℚ) - 1) * (b : ℚ)
        = ((((a + b - 1) / b - 1) * b : Int) : ℚ) := by push_cast; ring
      _ < (a : ℚ) := by exact_mod_cast h2
  · rw [div_le_iff₀ hbq]
    have h3 : a + b - 1 < ((a + b - 1) / b + 1) * b :=
      Int.lt_ediv_add_one_mul_self (a + b - 1) hb
    have h4 : a ≤ ((a + b - 1) / b) * b := by nlinarith
    exact_mod_cast h4

/-- C1.  In the Executor, `total_pages` is the ceiling of total over page
size with a minimum of one, and the page served is the requested page
clamped into `[1, total_pages]` after the count query and before the
fetch: an out-of-range request (including any request when the total is
zero) degrades to the nearest valid page. -/
theorem execute_paging_spec (total page page_size : Int) (hps : 1 ≤ page_size) :
    (FullTextSearch.execute_paging total page page_size).1
        = max 1 ⌈(total : ℚ) / (page_size : ℚ)⌉ ∧
    1 ≤ (FullTextSearch.execute_paging total page page_size).2 ∧
    (FullTextSearch.execute_paging total page page_size).2
        ≤ (FullTextSearch.execute_paging total page page_size).1 ∧
    (1 ≤ page → page ≤ (FullTextSearch.execute_paging total page page_size).1 →
        (FullTextSearch.execute_paging total page page_size).2 = page) ∧
    (page ≤ 1 → (FullTextSearch.execute_paging total page page_size).2 = 1) ∧
    ((FullTextSearch.execute_paging total page page_size).1 ≤ page →
        (FullTextSearch.execute_paging total page page_size).2
          = (FullTextSearch.execute_paging total page page_size).1) := by
  have hceil := fdiv_pred_eq_ceil total page_size (by omega)
  simp only [FullTextSearch.execute_paging]
  refine ⟨by rw [hceil], ?_, ?_, ?_, ?_, ?_⟩ <;> omega

/-- C1 witness at a zero total: one total page and the out-of-range
request for page seven served as page one. -/
theorem execute_paging_spec_witness :
    (FullTextSearch.execute_paging 0 7 25).1 = max 1 ⌈(0 : ℚ) / (25 : ℚ)⌉ ∧
    FullTextSearch.execute_paging 0 7 25 = (1, 1) :=
  ⟨(execute_paging_spec 0 7 25 (by norm_num)).1, by decide⟩

/-- C6.  The pagination accessor: numeric input yields the page floored at
one and the page size clamped into `[1, 100]`; invalid or non-numeric
input (a conversion error from either argument) silently coerces to page
one with the caller-supplied default page size instead of raising. -/
theorem parse_pagination_spec (page limit : PyVal) (d : Int) :
    (∀ p l : Int, pyToInt page = .ok p → pyToInt limit = .ok l →
        parse_pagination page limit d = (max 1 p, max 1 (min 100 l)) ∧
        1 ≤ max 1 p ∧ 1 ≤ max 1 (min 100 l) ∧ max 1 (min 100 l) ≤ 100) ∧
    (((pyToInt page).isOk = false ∨ (pyToInt limit).isOk = false) →
        parse_pagination page limit d = (1, d)) := by
  constructor
  · intro p l hp hl
    refine ⟨?_, le_max_left _ _, le_max_left _ _, by omega⟩
    simp [parse_pagination, hp, hl]
  · intro h
    unfold parse_pagination
    cases hp : pyToInt page <;> cases hl : pyToInt limit <;>
      simp_all [Except.isOk, Except.toBool]

/-- C6 witness: numeric strings are clamped, a non-numeric page string
falls back to page one with the default page size of twenty-eight. -/
theorem parse_pagination_spec_witness :
    parse_pagination (.pstr "3") (.pstr "250") 28 = (3, 100) ∧
    parse_pagination (.pstr "abc") (.pint 50) 28 = (1, 28) := by
  constructor
  · have h := ((parse_pagination_spec (.pstr "3") (.pstr "250") 28).1
      3 250 rfl rfl).1
    rw [h, Prod.mk.injEq]
    constructor <;> omega
  · exact (parse_pagination_spec (.pstr "abc") (.pint 50) 28).2 (Or.inl (by decide))

/-- C5 counterexample.  The normalizer maps the documented marker string
to `SmithJohn` with no space at the subfield boundary, not `Smith John`;
and it is not idempotent: one removal pass over `$$ab` exposes a fresh
marker (`$b`) that only a second pass removes. -/
theorem format_field_counterexample :
    format_field "name" "$aSmith$bJohn" = "SmithJohn" ∧
    format_field "name" "$aSmith$bJohn" ≠ "Smith John" ∧
    format_field "title" (format_field "title" "$$ab")
      ≠ format_field "title" "$$ab" := by
  refine ⟨by decide, by decide, by decide⟩

/-- C5 as amended.  The Field Normalizer strips MARC subfield markers
without inserting a space at the boundary (`$aSmith$bJohn` becomes
`SmithJohn`), collapses a trailing `:` or `;` separator, and is idempotent
at marker-free results such as these, though not in general: removing a
marker can expose a new one (`$$ab` normalizes to `$b`, which a second
application sends to the empty string). -/
theorem format_field_amended :
    format_field "name" "$aSmith$bJohn" = "SmithJohn" ∧
    format_field "name" "SmithJohn" = "SmithJohn" ∧
    format_field "name" (format_field "name" "$aSmith$bJohn")
      = format_field "name" "$aSmith$bJohn" ∧
    format_field "title" "Smith John:" = "Smith John" ∧
    format_field "title" "Smith John ;" = "Smith John" ∧
    format_field "title" "$$ab" = "$b" ∧
    format_field "title" "$b" = "" := by
  refine ⟨by decide, by decide, by decide, by decide, by decide, by decide, by decide⟩

theorem matchUpdatedTail_no_newline {t : List Char} (h : '\n' ∉ t) :
    matchUpdated.matchUpdatedTail t = some [] := by
  unfold matchUpdated.matchUpdatedTail
  have h2 : '\n' ∉ t.dropWhile pyWhitespace :=
    fun hm => h ((List.dropWhile_sublist _).subset hm)
  have h3 : '\n' ∉ (t.dropWhile pyWhitespace).dropLast :=
    fun hm => h2 ((List.dropLast_sublist _).subset hm)
  have h4 : (t.dropWhile pyWhitespace).getLast? ≠ some '\n' := by
    intro hg
    rcases List.getLast?_eq_some_iff.mp hg with ⟨ys, hys⟩
    exact h2 (hys ▸ List.mem_append_right ys (List.mem_singleton_self _))
  simp [h3, h4]

theorem stripUpdatedSub_marker (u : Char) (hu : u = 'U' ∨ u = 'u')
    (b : List Char) (hb : '\n' ∉ b) :
    stripUpdatedSub
        ('f' :: 'o' :: 'o' :: ' ' :: u :: 'p' :: 'd' :: 'a' :: 't' :: 'e' :: 'd' :: ':' :: b)
      = ['f', 'o', 'o'] := by
  rcases hu with h | h <;> subst h <;>
    simp [stripUpdatedSub, matchUpdated, List.dropWhile, pyWhitespace,
      matchUpdatedTail_no_newline hb]

/-- C7 counterexample.  Only the first letter of the `Updated:` marker is
case-insensitive in the credits pattern, so a fully upper-case marker is
not stripped: normalizing `x UPDATED: y` under the credits key leaves it
unchanged rather than truncating it to `x`. -/
theorem strip_updated_counterexample :
    format_field "credits" "x UPDATED: y" = "x UPDATED: y" ∧
    format_field "credits" "x UPDATED: y" ≠ "x" ∧
    strip_updated "x UPDATED: y" = "x UPDATED: y" := by
  refine ⟨by decide, by decide, by decide⟩

/-- C7 as amended.  The credits stripper truncates at the leftmost
`Updated:` or `updated:` marker (only the initial letter is
case-insensitive) whose remainder runs to the end of the string without a
line break, dropping the marker, the whitespace before it and everything
after it; markers in other capitalizations are left in place. -/
theorem strip_updated_amended (b : String) (hb : '\n' ∉ b.data) :
    strip_updated ("foo Updated:" ++ b) = "foo" ∧
    strip_updated ("foo updated:" ++ b) = "foo" ∧
    strip_updated "x UPDATED: y" = "x UPDATED: y" := by
  have hdataU : ("foo Updated:" ++ b).data
      = 'f' :: 'o' :: 'o' :: ' ' :: 'U' :: 'p' :: 'd' :: 'a' :: 't' :: 'e' :: 'd' :: ':' :: b.data := by
    simp [String.data_append]
  have hdataL : ("foo updated:" ++ b).data
      = 'f' :: 'o' :: 'o' :: ' ' :: 'u' :: 'p' :: 'd' :: 'a' :: 't' :: 'e' :: 'd' :: ':' :: b.data := by
    simp [String.data_append]
  have hneU : ("foo Updated:" ++ b) ≠ "" := by
    intro h
    have := congrArg String.data h
    rw [hdataU] at this
    simp at this
  have hneL : ("foo updated:" ++ b) ≠ "" := by
    intro h
    have := congrArg String.data h
    rw [hdataL] at this
    simp at this
  refine ⟨?_, ?_, by decide⟩
  · rw [strip_updated, if_neg hneU, hdataU,
      stripUpdatedSub_marker 'U' (Or.inl rfl) b.data hb]
    decide
  · rw [strip_updated, if_neg hneL, hdataL,
      stripUpdatedSub_marker 'u' (Or.inr rfl) b.data hb]
    decide

/-- C7 witness: a concrete newline-free tail after each marker. -/
theorem strip_updated_amended_witness :
    strip_updated ("foo Updated:" ++ " 2024-01-01 by Bob") = "foo" ∧
    strip_updated ("foo updated:" ++ " 2024-01-01 by Bob") = "foo" :=
  ⟨(strip_updated_amended " 2024-01-01 by Bob" (by decide)).1,
   (strip_updated_amended " 2024-01-01 by Bob" (by decide)).2.1⟩

/-- C10.  The dispatch table holds entries only for the PG and OPDS
members; executing a query whose crosswalk is FULL (the builder default),
MINI, or CUSTOM with no registered transformer raises a lookup error
during row transformation, so no result is rendered whenever any row is
to be transformed. -/
theorem crosswalk_dispatch_missing :
    CROSSWALK_MAP Crosswalk.FULL = none ∧
    CROSSWALK_MAP Crosswalk.MINI = none ∧
    CROSSWALK_MAP Crosswalk.CUSTOM = none ∧
    (CROSSWALK_MAP Crosswalk.PG).isSome = true ∧
    (CROSSWALK_MAP Crosswalk.OPDS).isSome = true ∧
    (FullTextSearch.query queryDefaultCrosswalk).cw = Crosswalk.FULL ∧
    (∀ row, FullTextSearch.transform none Crosswalk.FULL row = .error "KeyError") ∧
    (∀ row, FullTextSearch.transform none Crosswalk.MINI row = .error "KeyError") ∧
    (∀ row, FullTextSearch.transform none Crosswalk.CUSTOM row = .error "KeyError") ∧
    (∀ (cw : Crosswalk) (total : Int) (rows : List Row), rows ≠ [] →
      (cw = Crosswalk.FULL ∨ cw = Crosswalk.MINI ∨ cw = Crosswalk.CUSTOM) →
      FullTextSearch.execute none (FullTextSearch.query cw) total rows
        = .error "KeyError") := by
  refine ⟨rfl, rfl, rfl, rfl, rfl, rfl, fun row => rfl, fun row => rfl, fun row => rfl,
    ?_⟩
  intro cw total rows hne hcw
  rcases rows with _ | ⟨r, rs⟩
  · exact absurd rfl hne
  · rcases hcw with h | h | h <;> subst h <;> rfl

/-- C10 witness: executing the default query (crosswalk FULL) over one
fetched row aborts with the lookup error. -/
theorem crosswalk_dispatch_missing_witness :
    FullTextSearch.execute none (FullTextSearch.query Crosswalk.FULL) 1 [sampleTextRow]
      = .error "KeyError" :=
  crosswalk_dispatch_missing.2.2.2.2.2.2.2.2.2 Crosswalk.FULL 1 [sampleTextRow]
    (by simp) (Or.inl rfl)

theorem lt_char_not_mem_paramName (n : Nat) : '<' ∉ (paramName n).data := by
  intro h
  have hdata : (paramName n).data = ['_', '_', 'p'] ++ (natDigitsRevAux n n).reverse := by
    simp [paramName, decimalStr, String.data_append]
  rw [hdata] at h
  rcases List.mem_append.mp h with h1 | h2
  · simp at h1
  · rw [List.mem_reverse] at h2
    have := natDigitsRevAux_digits n n '<' h2
    simp at this

/-- C2.  When the ordering key is relevance and a search clause exists,
the compiled ORDER BY reuses the last-added clause: its ranking column and
its text value (stripped, with percent signs removed) bound as `rank_q`;
the ranking function is word-similarity for a fuzzy clause and ts_rank_cd
for a strict clause, each descending with downloads descending as the
tie-break.  When relevance is requested with no search clause, ordering
falls back to downloads descending. -/
theorem order_sql_relevance (q0 : SearchQuery) (params : List (String × PValue))
    (txt : String) (st : SearchType) (dir : Option SortDirection) (q : SearchQuery)
    (hq : q = (q0.search txt SearchField.BOOK st).order_by OrderBy.RELEVANCE dir)
    (h : pyStrip txt ≠ "") :
    (q.order_sql params).1 =
      (match st with
       | SearchType.FUZZY => "word_similarity(:rank_q, book_text) DESC, downloads DESC"
       | SearchType.FTS =>
           "ts_rank_cd(tsvec, websearch_to_tsquery(\x27english\x27, :rank_q)) DESC, downloads DESC") ∧
    (q.order_sql params).2 =
      dictSet params "rank_q" (PValue.pstr (removePercent (pyStrip txt))) ∧
    (∀ (q1 : SearchQuery) (params1 : List (String × PValue)),
        q1.order = OrderBy.RELEVANCE → q1.search_clauses = [] →
        (q1.order_sql params1).1 = "downloads DESC") := by
  have fallback : ∀ (q1 : SearchQuery) (params1 : List (String × PValue)),
      q1.order = OrderBy.RELEVANCE → q1.search_clauses = [] →
      (q1.order_sql params1).1 = "downloads DESC" := by
    intro q1 params1 ho hs
    simp [SearchQuery.order_sql, ho, hs, ORDER_COLUMNS]
  cases st with
  | FUZZY =>
      subst hq
      simp only [SearchQuery.search, SearchQuery.new_param, SearchQuery.order_by]
      rw [if_neg h]
      simp only [SearchQuery.order_sql, List.getLast?_concat, FIELD_COLS]
      have hsub : hasSubstrStr
          (":" ++ paramName q0.param_counter ++ " <% " ++ "book_text") "<%" = true := by
        have h1 : ":" ++ paramName q0.param_counter ++ " <% " ++ "book_text"
            = (":" ++ paramName q0.param_counter) ++ (" <% " ++ "book_text") := by
          rw [String.append_assoc]
        rw [h1]
        unfold hasSubstrStr
        rw [String.data_append]
        exact hasSubstr_append_right _ _ _ (by decide)
      refine And.intro ?_ (And.intro ?_ fallback) <;> simp [hsub, pvalueStr]
  | FTS =>
      subst hq
      simp only [SearchQuery.search, SearchQuery.new_param, SearchQuery.order_by]
      rw [if_neg h]
      simp only [SearchQuery.order_sql, List.getLast?_concat, FIELD_COLS]
      have hsub : hasSubstrStr
          ("tsvec @@ websearch_to_tsquery(\x27english\x27, :"
            ++ paramName q0.param_counter ++ ")") "<%" = false := by
        unfold hasSubstrStr
        apply hasSubstr_eq_false (show ("<%".data).head? = some '<' by decide)
        intro hmem
        simp only [String.data_append, List.mem_append] at hmem
        rcases hmem with (h1 | h1) | h1
        · exact absurd h1 (by decide)
        · exact lt_char_not_mem_paramName q0.param_counter h1
        · exact absurd h1 (by decide)
      refine And.intro ?_ (And.intro ?_ fallback) <;> simp [hsub, pvalueStr]

/-- C2 witness: a fuzzy search for `Tragedy` added last, with relevance
ordering, ranks by word similarity against the stripped text. -/
theorem order_sql_relevance_witness :
    ((((SearchQuery.init.search "Shakespeare" SearchField.BOOK SearchType.FTS).search
        "Tragedy" SearchField.BOOK SearchType.FUZZY).order_by
        OrderBy.RELEVANCE none).order_sql []).1
      = "word_similarity(:rank_q, book_text) DESC, downloads DESC" ∧
    ((((SearchQuery.init.search "Shakespeare" SearchField.BOOK SearchType.FTS).search
        "Tragedy" SearchField.BOOK SearchType.FUZZY).order_by
        OrderBy.RELEVANCE none).order_sql []).2
      = [("rank_q", PValue.pstr "Tragedy")] := by
  have h := order_sql_relevance
    (SearchQuery.init.search "Shakespeare" SearchField.BOOK SearchType.FTS) []
    "Tragedy" SearchType.FUZZY none _ rfl (by decide)
  refine ⟨h.1, ?_⟩
  rw [h.2.1]
  decide

theorem findFormatLink_eq (formats : List FormatEntry) (t : String) :
    findFormatLink formats t
      = (formats.find? (fun f =>
          optStrTruthy f.filename && (entryFiletype f == t))).map mkTextLink := by
  induction formats with
  | nil => rfl
  | cons f rest ih =>
      by_cases h1 : optStrTruthy f.filename = true
      · by_cases h2 : entryFiletype f = t
        · simp [findFormatLink, h1, h2, List.find?_cons]
        · simp [findFormatLink, h1, h2, List.find?_cons, ih]
      · simp only [Bool.not_eq_true] at h1
        simp [findFormatLink, h1, List.find?_cons, ih]

theorem textLinksLoop_eq (formats : List FormatEntry) (tries : List String) :
    textLinksLoop formats tries
      = (match tries.findSome? (fun t => formats.find?
            (fun f => optStrTruthy f.filename && (entryFiletype f == t))) with
         | some f => [mkTextLink f]
         | none => []) := by
  induction tries with
  | nil => rfl
  | cons t ts ih =>
      rw [textLinksLoop, findFormatLink_eq, List.findSome?_cons]
      cases hf : formats.find? (fun f =>
          optStrTruthy f.filename && (entryFiletype f == t)) with
      | none => simpa using ih
      | some f0 => simp

/-- C4.  For every non-audio row the OPDS transformer emits exactly one
acquisition link: the fixed preference order (the richest illustrated epub
format first, ending in a plain web page) is scanned and the first format
with a matching file wins; when nothing matches, the single link is the
generic web-page link to the catalog entry, so the links list is never
empty. -/
theorem crosswalk_opds_text_links (row : Row) (h : row.is_audio = false) :
    (crosswalk_opds row).links.length = 1 ∧
    (crosswalk_opds row).links =
      (match (targetFormat :: fallbackFormats).findSome?
          (fun t => (buildFormats row).find?
            (fun f => optStrTruthy f.filename && (entryFiletype f == t))) with
       | some f => [formatLink (mkTextLink f)]
       | none => [formatLink (genericHtmlLink row.book_id)]) := by
  unfold crosswalk_opds
  simp only [h, Bool.false_eq_true, if_false]
  rw [textLinksLoop_eq]
  cases hf : (targetFormat :: fallbackFormats).findSome?
      (fun t => (buildFormats row).find?
        (fun f => optStrTruthy f.filename && (entryFiletype f == t))) with
  | none => simp
  | some f0 => simp

/-- C4 witness: the specification scenario of a row holding only a plain
text file and a PDF with images yields the PDF acquisition link, not the
generic web-page link. -/
theorem crosswalk_opds_text_links_witness :
    (crosswalk_opds sampleTextRow).links.length = 1 ∧
    (crosswalk_opds sampleTextRow).links =
      [{ rel := "http://opds-spec.org/acquisition/open-access"
         href := "https://www.gutenberg.org/files/1342/1342.pdf"
         type := "application/pdf"
         title := some "PDF"
         length := some 5000 }] :=
  ⟨(crosswalk_opds_text_links sampleTextRow rfl).1, by decide⟩

theorem dropWhile_eq_self_of_head {p : Char → Bool} {l : List Char}
    (h : ∀ c, l.head? = some c → p c = false) : l.dropWhile p = l := by
  cases l with
  | nil => rfl
  | cons c cs =>
      rw [List.dropWhile_cons, h c rfl]
      simp

theorem pyStripList_id {l : List Char}
    (h1 : ∀ c, l.head? = some c → pyWhitespace c = false)
    (h2 : ∀ c, l.getLast? = some c → pyWhitespace c = false) :
    pyStripList l = l := by
  unfold pyStripList
  rw [dropWhile_eq_self_of_head h1]
  rw [dropWhile_eq_self_of_head (fun c hc => h2 c ?_), List.reverse_reverse]
  rwa [List.getLast?_eq_head?_reverse]

theorem pyRstripColonSpace_id {s : String}
    (h : ∀ c, s.data.getLast? = some c → (c == ':' || c == ' ') = false) :
    pyRstripColonSpace s = s := by
  unfold pyRstripColonSpace
  have h2 : ∀ c, s.data.reverse.head? = some c → (c == ':' || c == ' ') = false := by
    intro c hc
    exact h c (by rwa [List.getLast?_eq_head?_reverse])
  rw [dropWhile_eq_self_of_head h2, List.reverse_reverse]

theorem stripMarcMarkers_cons_ne (c : Char) (cs : List Char) (hc : c ≠ '$') :
    stripMarcMarkers (c :: cs) = c :: stripMarcMarkers cs := by
  rw [stripMarcMarkers.eq_def]
  split
  · next heq => simp at heq
  · next c2 rest heq =>
      rw [List.cons_eq_cons] at heq
      exact absurd heq.1 hc
  · next c2 rest heq =>
      rw [List.cons_eq_cons] at heq
      rw [heq.1, heq.2]

theorem stripMarcMarkers_id (l : List Char) (h : '$' ∉ l) :
    stripMarcMarkers l = l := by
  induction l with
  | nil => rfl
  | cons c cs ih =>
      have hc : c ≠ '$' := fun he => h (he ▸ List.mem_cons_self c cs)
      have hcs : '$' ∉ cs := fun hm => h (List.mem_cons_of_mem c hm)
      rw [stripMarcMarkers_cons_ne c cs hc, ih hcs]

theorem marcSpSep_id (l : List Char) (h : ∀ c ∈ l, c ≠ ',' ∧ c ≠ ':') :
    marcSpSep l = l := by
  induction l using marcSpSep.induct with
  | case1 a b c rest hcond ih =>
      have hb := h b (by simp)
      simp [isSpNl, isAsciiAlnum, hb.1, hb.2] at hcond
  | case2 a b c rest hcond ih =>
      have hsub : ∀ x ∈ b :: c :: rest, x ≠ ',' ∧ x ≠ ':' :=
        fun x hx => h x (List.mem_cons_of_mem a hx)
      simp only [marcSpSep]
      rw [if_neg hcond, ih hsub]
  | case3 l hne =>
      rw [marcSpSep.eq_def]
      split
      · exact absurd rfl (hne _ _ _ _)
      · rfl

theorem matchSplit_none {l : List Char} (h : ∀ c ∈ l, c ≠ ';' ∧ c ≠ ':') :
    matchSplit l = none := by
  unfold matchSplit
  cases hd : l.dropWhile pyWhitespace with
  | nil => rfl
  | cons c r =>
      have hc : c ∈ l := by
        refine (List.dropWhile_sublist pyWhitespace).subset ?_
        rw [hd]
        exact List.mem_cons_self c r
      obtain ⟨h1, h2⟩ := h c hc
      simp [h1, h2]

theorem titleSplitterAux_id (fuel : Nat) :
    ∀ l : List Char, (∀ c ∈ l, c ≠ ';' ∧ c ≠ ':') → titleSplitterAux fuel l = l := by
  induction fuel with
  | zero => intro l h; rfl
  | succ f ih =>
      intro l h
      cases l with
      | nil => rfl
      | cons c cs =>
          simp only [titleSplitterAux, matchSplit_none h]
          rw [ih cs (fun x hx => h x (List.mem_cons_of_mem c hx))]

theorem map_fixCurly_id (l : List Char) (h : ∀ c ∈ l, fixCurly c = c) :
    l.map fixCurly = l :=
  (List.map_congr_left h).trans (List.map_id l)

theorem isDigit_ne {c : Char} (h : c.isDigit = true) {d : Char}
    (hd : d.isDigit = false) : c ≠ d := by
  intro he
  rw [he, hd] at h
  cases h

theorem isDigit_pyWhitespace {c : Char} (h : c.isDigit = true) :
    pyWhitespace c = false := by
  have l1 := isDigit_ne h (show Char.isDigit ' ' = false by decide)
  have l2 := isDigit_ne h (show Char.isDigit '\t' = false by decide)
  have l3 := isDigit_ne h (show Char.isDigit '\n' = false by decide)
  have l4 := isDigit_ne h (show Char.isDigit '\r' = false by decide)
  have l5 := isDigit_ne h (show Char.isDigit '\x0b' = false by decide)
  have l6 := isDigit_ne h (show Char.isDigit '\x0c' = false by decide)
  simp [pyWhitespace, l1, l2, l3, l4, l5, l6]

theorem fixCurly_of_digit {c : Char} (h : c.isDigit = true) : fixCurly c = c := by
  have l1 := isDigit_ne h (show Char.isDigit '‘' = false by decide)
  have l2 := isDigit_ne h (show Char.isDigit '’' = false by decide)
  have l3 := isDigit_ne h (show Char.isDigit '“' = false by decide)
  have l4 := isDigit_ne h (show Char.isDigit '”' = false by decide)
  simp [fixCurly, l1, l2, l3, l4]

theorem getLast_mem_of_eq {l : List Char} {c : Char} (h : l.getLast? = some c) :
    c ∈ l := by
  rcases List.getLast?_eq_some_iff.mp h with ⟨ys, rfl⟩
  exact List.mem_append_right ys (List.mem_singleton_self c)

theorem format_field_title_part (ds : List Char) (hne : ds ≠ [])
    (hds : ∀ c ∈ ds, c.isDigit = true) :
    format_field "title" (String.mk ('P' :: 'a' :: 'r' :: 't' :: ' ' :: ds))
      = String.mk ('P' :: 'a' :: 'r' :: 't' :: ' ' :: ds) := by
  set l := 'P' :: 'a' :: 'r' :: 't' :: ' ' :: ds with hl
  have hmem : ∀ c ∈ l, c = 'P' ∨ c = 'a' ∨ c = 'r' ∨ c = 't' ∨ c = ' ' ∨ c ∈ ds := by
    intro c hc
    simpa [hl] using hc
  have hdollar : '$' ∉ l := by
    intro hc
    rcases hmem '$' hc with h | h | h | h | h | h
    · exact absurd h (by decide)
    · exact absurd h (by decide)
    · exact absurd h (by decide)
    · exact absurd h (by decide)
    · exact absurd h (by decide)
    · exact absurd (hds _ h) (by decide)
  have hseps : ∀ c ∈ l, c ≠ ',' ∧ c ≠ ':' ∧ c ≠ ';' := by
    intro c hc
    rcases hmem c hc with h | h | h | h | h | h
    · subst h; refine ⟨by decide, by decide, by decide⟩
    · subst h; refine ⟨by decide, by decide, by decide⟩
    · subst h; refine ⟨by decide, by decide, by decide⟩
    · subst h; refine ⟨by decide, by decide, by decide⟩
    · subst h; refine ⟨by decide, by decide, by decide⟩
    · have hd := hds _ h
      exact ⟨isDigit_ne hd (by decide), isDigit_ne hd (by decide),
        isDigit_ne hd (by decide)⟩
  have hcurly : ∀ c ∈ l, fixCurly c = c := by
    intro c hc
    rcases hmem c hc with h | h | h | h | h | h
    · subst h; decide
    · subst h; decide
    · subst h; decide
    · subst h; decide
    · subst h; decide
    · exact fixCurly_of_digit (hds _ h)
  have hhead : ∀ c, l.head? = some c → pyWhitespace c = false := by
    intro c hc
    rw [hl] at hc
    simp only [List.head?_cons, Option.some.injEq] at hc
    subst hc
    decide
  have hlastds : l.getLast? = ds.getLast? := by
    rcases ds with _ | ⟨d, ds2⟩
    · exact absurd rfl hne
    · simp [hl, List.getLast?_cons_cons]
  have hlastdigit : ∀ c, l.getLast? = some c → c.isDigit = true := by
    intro c hc
    rw [hlastds] at hc
    exact hds c (getLast_mem_of_eq hc)
  have hlastws : ∀ c, l.getLast? = some c → pyWhitespace c = false :=
    fun c hc => isDigit_pyWhitespace (hlastdigit c hc)
  have hmkne : String.mk l ≠ "" := by
    intro he
    have := congrArg String.data he
    simp [hl] at this
  have hps : pyStrip (String.mk l) = String.mk l := by
    unfold pyStrip
    rw [pyStripList_id hhead hlastws]
  have hsm : strip_marc_subfields (String.mk l) = String.mk l := by
    unfold strip_marc_subfields
    rw [if_neg hmkne]
    have hdata : (String.mk l).data = l := rfl
    rw [hdata, stripMarcMarkers_id l hdollar,
      marcSpSep_id l (fun c hc => ⟨(hseps c hc).1, (hseps c hc).2.1⟩)]
    exact hps
  have hnt : normalize_text (String.mk l) = String.mk l := by
    unfold normalize_text
    rw [if_neg hmkne]
    have hdata : (String.mk l).data = l := rfl
    rw [hdata, map_fixCurly_id l hcurly]
    unfold titleSplitter
    rw [titleSplitterAux_id l.length l
      (fun c hc => ⟨(hseps c hc).2.2, (hseps c hc).2.1⟩)]
    rw [pyRstripColonSpace_id (s := String.mk l) ?_]
    · exact hps
    · intro c hc
      have hd := hlastdigit c hc
      have n1 : c ≠ ':' := isDigit_ne hd (by decide)
      have n2 : c ≠ ' ' := isDigit_ne hd (by decide)
      simp [n1, n2]
  simp only [format_field]
  rw [if_neg hmkne, if_pos (show FIELDS_TO_FORMAT.contains "title" = true by decide)]
  rw [hsm, hnt]
  rw [if_neg (show ¬ ("title" = "credits") by decide)]
  exact hps

theorem audioLoop_tracks (formats : List FormatEntry) :
    (audioLoop formats).1 = (formats.filter isMp3Entry).map mkAudioTrack := by
  induction formats with
  | nil => rfl
  | cons f rest ih =>
      by_cases h : isMp3Entry f = true
      · simp [audioLoop, h, List.filter_cons, ih]
      · simp only [Bool.not_eq_true] at h
        simp [audioLoop, h, List.filter_cons, ih]

theorem audioLoop_total (formats : List FormatEntry) :
    (audioLoop formats).2
      = ((audioLoop formats).1.map (fun t => t.duration.getD 0)).sum := by
  induction formats with
  | nil => rfl
  | cons f rest ih =>
      by_cases h : isMp3Entry f = true
      · simp only [audioLoop, h, if_true]
        cases hd : (mkAudioTrack f).duration <;>
          simp [hd, ih, Option.getD]
      · simp only [Bool.not_eq_true] at h
        simp [audioLoop, h, ih]

theorem parseMp3Part_shape (fn : String) (s : String) (h : parseMp3Part fn = some s) :
    ∃ ds : List Char, ds ≠ [] ∧ (∀ c ∈ ds, c.isDigit = true) ∧ s = String.mk ds := by
  simp only [parseMp3Part] at h
  split at h
  · split at h
    · split at h
      · cases h
      · split at h
        · rename_i rest heq1 hcase hanon hempty heq2
          cases h
          refine ⟨_, ?_, ?_, rfl⟩
          · intro he
            rw [List.reverse_eq_nil_iff] at he
            rw [he] at hcase
            simp at hcase
          · intro c hc
            rw [List.mem_reverse] at hc
            exact List.mem_takeWhile_imp hc
        · cases h
    · cases h
  · cases h

theorem mkAudioTrack_key (f : FormatEntry) :
    trackKey (formatTrack (mkAudioTrack f)) = trackKey (mkAudioTrack f) := by
  cases hp : parseMp3Part (optStrOrEmpty f.filename) with
  | none => simp [mkAudioTrack, formatTrack, trackKey, hp]
  | some s =>
      rcases parseMp3Part_shape _ _ hp with ⟨ds, hne, hds, rfl⟩
      have hpart : ("Part " ++ String.mk ds)
          = String.mk ('P' :: 'a' :: 'r' :: 't' :: ' ' :: ds) := by
        apply String.ext
        simp [String.data_append]
      simp only [mkAudioTrack, formatTrack, trackKey, hp, Option.map_some']
      rw [hpart, format_field_title_part ds hne hds]

/-- C8 counterexample.  The reading order is sorted by the title string
`Part <n>`, not by the numeric part number: with parts 10 and 2 the
emitted order is `Part 10` before `Part 2`, which is not numerically
ascending. -/
theorem reading_order_counterexample :
    partNums (crosswalk_opds sampleAudioRow).readingOrder = [10, 2] ∧
    ¬ List.Sorted (· ≤ ·) (partNums (crosswalk_opds sampleAudioRow).readingOrder) := by
  refine ⟨by decide, by decide⟩

/-- C8 as amended.  For every audio row the transformer builds one
reading-order track per mp3-matched file; the reading order is the track
list sorted ascending by the title-string key `Part <digits>`
(lexicographically, so numeric order holds only for equal digit counts);
each track carries a duration derived from its byte size under the fixed
128 kbps assumption, and the work-level duration is the sum of the
emitted track durations, present exactly when that sum is positive. -/
theorem crosswalk_opds_audio (row : Row) (h : row.is_audio = true) :
    (crosswalk_opds row).readingOrder
      = (List.insertionSort trackLe
          (((buildFormats row).filter isMp3Entry).map mkAudioTrack)).map formatTrack ∧
    List.Sorted trackLe (crosswalk_opds row).readingOrder ∧
    List.Perm (crosswalk_opds row).readingOrder
      (((buildFormats row).filter isMp3Entry).map
        (fun f => formatTrack (mkAudioTrack f))) ∧
    (crosswalk_opds row).duration
      = (if 0 < (((crosswalk_opds row).readingOrder.map
            (fun t => t.duration.getD 0)).sum : Int)
         then some (((crosswalk_opds row).readingOrder.map
            (fun t => t.duration.getD 0)).sum)
         else none) := by
  have htr := audioLoop_tracks (buildFormats row)
  have hro : (crosswalk_opds row).readingOrder
      = (List.insertionSort trackLe
          ((audioLoop (buildFormats row)).1)).map formatTrack := by
    simp [crosswalk_opds, h]
  have hdur : (crosswalk_opds row).duration
      = (if 0 < (audioLoop (buildFormats row)).2
         then some ((audioLoop (buildFormats row)).2) else none) := by
    simp [crosswalk_opds, h]
  have hsorted0 : List.Sorted trackLe
      (List.insertionSort trackLe ((audioLoop (buildFormats row)).1)) :=
    List.sorted_insertionSort trackLe _
  have hkeymem : ∀ t ∈ List.insertionSort trackLe ((audioLoop (buildFormats row)).1),
      trackKey (formatTrack t) = trackKey t := by
    intro t ht
    have hmem : t ∈ (audioLoop (buildFormats row)).1 :=
      (List.perm_insertionSort trackLe _).subset ht
    rw [htr] at hmem
    rcases List.mem_map.mp hmem with ⟨f, _, rfl⟩
    exact mkAudioTrack_key f
  have hdurk : ((crosswalk_opds row).readingOrder.map (fun t => t.duration.getD 0))
      = ((List.insertionSort trackLe ((audioLoop (buildFormats row)).1)).map
          (fun t => t.duration.getD 0)) := by
    rw [hro, List.map_map]
    rfl
  have hsum : (((crosswalk_opds row).readingOrder.map
      (fun t => t.duration.getD 0)).sum : Int)
      = (audioLoop (buildFormats row)).2 := by
    rw [hdurk, audioLoop_total]
    exact List.Perm.sum_eq ((List.perm_insertionSort trackLe _).map _)
  refine ⟨by rw [hro, htr], ?_, ?_, ?_⟩
  · rw [hro]
    rw [List.Sorted, List.pairwise_map]
    refine List.Pairwise.imp_of_mem ?_ hsorted0
    intro a b ha hb hab
    unfold trackLe at hab ⊢
    rw [hkeymem a ha, hkeymem b hb]
    exact hab
  · rw [hro, htr]
    have hperm := (List.perm_insertionSort trackLe
      (((buildFormats row).filter isMp3Entry).map mkAudioTrack)).map formatTrack
    rw [List.map_map] at hperm
    exact hperm
  · rw [hdur, hsum]

/-- C8 witness: the two-track sample audiobook, one track per mp3 file,
reading order sorted by title-string key, and the work duration equal to
the track-duration sum (one hundred plus two hundred seconds). -/
theorem crosswalk_opds_audio_witness :
    List.Sorted trackLe (crosswalk_opds sampleAudioRow).readingOrder ∧
    (crosswalk_opds sampleAudioRow).readingOrder.length = 2 ∧
    (crosswalk_opds sampleAudioRow).duration = some 300 :=
  ⟨(crosswalk_opds_audio sampleAudioRow rfl).2.1, by decide, by decide⟩

/-- C9.  The facet aggregation samples at most `max_books` (clamped into
`[1, 5000]`) matching rows taken in the specification's existing order —
the result is unchanged if the match sequence is cut to the clamped sample
size, so rows beyond it are never inspected — and returns at most `limit`
(clamped into `[1, 100]`) subject rows sorted descending by frequency. -/
theorem top_subjects_spec (matched_order : List Int) (subjects : List SubjectRow)
    (links : List SubjectLink) (limit max_books : Int) :
    (get_top_subjects_for_query matched_order subjects links limit max_books).length
        ≤ (max 1 (min 100 limit)).toNat ∧
    (max 1 (min 100 limit)).toNat ≤ 100 ∧
    List.Sorted facetGe
      (get_top_subjects_for_query matched_order subjects links limit max_books) ∧
    get_top_subjects_for_query matched_order subjects links limit max_books
      = get_top_subjects_for_query
          (matched_order.take (max 1 (min 5000 max_books)).toNat)
          subjects links limit max_books ∧
    (matched_order.take (max 1 (min 5000 max_books)).toNat).length ≤ 5000 := by
  refine ⟨?_, by omega, ?_, ?_, ?_⟩
  · exact List.length_take_le _ _
  · exact List.Pairwise.sublist (List.take_sublist _ _)
      (List.sorted_insertionSort facetGe _)
  · simp [get_top_subjects_for_query, topSubjectsSql, List.take_take]
  · refine le_trans (List.length_take_le _ _) ?_
    omega

theorem bindValues_spec (values : List PValue) : ∀ q : SearchQuery,
    (q.bindValues values).1.search_clauses = q.search_clauses ∧
    (q.bindValues values).1.filters = q.filters ∧
    (q.bindValues values).1.param_counter = q.param_counter + values.length ∧
    (q.bindValues values).2.1.map Prod.fst
      = (List.range' q.param_counter values.length).map paramName := by
  induction values with
  | nil =>
      intro q
      refine ⟨rfl, rfl, rfl, by simp [SearchQuery.bindValues]⟩
  | cons v vs ih =>
      intro q
      obtain ⟨h1, h2, h3, h4⟩ :=
        ih { q with param_counter := q.param_counter + 1 }
      rcases he : ({ q with param_counter := q.param_counter + 1 } :
          SearchQuery).bindValues vs with ⟨q2, ps, phs⟩
      rw [he] at h1 h2 h3 h4
      simp only [SearchQuery.bindValues, SearchQuery.new_param, he]
      refine ⟨h1, h2, by simp at h3 ⊢; omega, ?_⟩
      have h4s : List.map Prod.fst ps
          = List.map paramName (List.range' (q.param_counter + 1) vs.length) := by
        simpa using h4
      simp [List.range'_succ, h4s]

theorem paramNamesOk_filter {q : SearchQuery} (h : paramNamesOk q)
    (tmpl : List String → String) (values : List PValue) :
    paramNamesOk (q.filter tmpl values) := by
  obtain ⟨ns1, ns2, hnd, hlt, hs1, hs2⟩ := h
  obtain ⟨h1, h2, h3, h4⟩ := bindValues_spec values q
  rcases he : q.bindValues values with ⟨q2, ps, phs⟩
  rw [he] at h1 h2 h3 h4
  refine ⟨ns1, ns2 ++ List.range' q.param_counter values.length, ?_, ?_, ?_, ?_⟩
  · rw [← List.append_assoc]
    rw [List.nodup_append] at hnd ⊢
    obtain ⟨hnd1, hnd2, hdisj⟩ := hnd
    have hr : (List.range' q.param_counter values.length).Nodup :=
      List.nodup_range' _ _
    have hless : ∀ i ∈ ns1 ++ ns2, ∀ j ∈ List.range' q.param_counter values.length,
        i ≠ j := by
      intro i hi j hj
      have hij := hlt i hi
      rw [List.mem_range'] at hj
      omega
    refine ⟨List.nodup_append.mpr ⟨hnd1, hnd2, hdisj⟩, hr, ?_⟩
    intro i hi hj
    exact hless i hi i hj rfl
  · intro i hi
    have h3x : q2.param_counter = q.param_counter + values.length := h3
    rw [← List.append_assoc] at hi
    rcases List.mem_append.mp hi with hi | hi
    · have := hlt i hi
      simp only [SearchQuery.filter, he]
      omega
    · rw [List.mem_range'] at hi
      obtain ⟨k, hk, rfl⟩ := hi
      simp only [SearchQuery.filter, he]
      omega
  · simp only [SearchQuery.filter, he]
    simp only [SearchQuery.searchBoundNames] at hs1 ⊢
    rw [h1]
    exact hs1
  · simp only [SearchQuery.filter, he]
    simp only [SearchQuery.filterBoundNames] at hs2 ⊢
    rw [h2, List.map_append, List.flatten_append, hs2, List.map_append]
    simp [h4]

theorem paramNamesOk_rawFilter {q : SearchQuery} (h : paramNamesOk q)
    (sql : String) : paramNamesOk { q with filters := q.filters ++ [(sql, [])] } := by
  obtain ⟨ns1, ns2, hnd, hlt, hs1, hs2⟩ := h
  refine ⟨ns1, ns2, hnd, hlt, hs1, ?_⟩
  simp only [SearchQuery.filterBoundNames] at hs2 ⊢
  rw [List.map_append, List.flatten_append, hs2]
  simp

theorem paramNamesOk_search {q : SearchQuery} (h : paramNamesOk q)
    (txt : String) (field : SearchField) (st : SearchType) :
    paramNamesOk (q.search txt field st) := by
  obtain ⟨ns1, ns2, hnd, hlt, hs1, hs2⟩ := h
  unfold SearchQuery.search
  cases field
  by_cases hb : pyStrip txt = ""
  · rw [if_pos hb]
    exact ⟨ns1, ns2, hnd, hlt, hs1, hs2⟩
  · rw [if_neg hb]
    have hcnt : ∀ i ∈ ns1 ++ (q.param_counter :: ns2), i < q.param_counter + 1 := by
      intro i hi
      rcases List.mem_append.mp hi with hi | hi
      · have := hlt i (List.mem_append_left ns2 hi)
        omega
      · rcases List.mem_cons.mp hi with hi | hi
        · omega
        · have := hlt i (List.mem_append_right ns1 hi)
          omega
    have hnodup : (ns1 ++ (q.param_counter :: ns2)).Nodup := by
      rw [List.nodup_append] at hnd
      obtain ⟨hnd1, hnd2, hdisj⟩ := hnd
      rw [List.nodup_append]
      refine ⟨hnd1, ?_, ?_⟩
      · rw [List.nodup_cons]
        refine ⟨fun hm => ?_, hnd2⟩
        have := hlt q.param_counter (List.mem_append_right ns1 hm)
        omega
      · intro i hi hj
        rcases List.mem_cons.mp hj with hj | hj
        · have := hlt i (List.mem_append_left ns2 hi)
          omega
        · exact hdisj hi hj
    cases st with
    | FTS =>
        refine ⟨ns1 ++ [q.param_counter], ns2, ?_, ?_, ?_, ?_⟩
        · rw [List.append_assoc]
          exact hnodup
        · intro i hi
          rw [List.append_assoc] at hi
          simp only [SearchQuery.new_param]
          rcases List.mem_append.mp hi with hi | hi
          · have := hcnt i (List.mem_append_left _ hi)
            simpa using this
          · rcases List.mem_cons.mp hi with hi | hi
            · subst hi; simp
            · have := hcnt i (List.mem_append_right _ (List.mem_cons_of_mem _ hi))
              simpa using this
        · simp only [SearchQuery.new_param, SearchQuery.searchBoundNames,
            List.map_append, List.flatten_append]
          simp only [SearchQuery.searchBoundNames] at hs1
          rw [hs1]
          simp
        · simp only [SearchQuery.new_param, SearchQuery.filterBoundNames]
          exact hs2
    | FUZZY =>
        refine ⟨ns1 ++ [q.param_counter], ns2, ?_, ?_, ?_, ?_⟩
        · rw [List.append_assoc]
          exact hnodup
        · intro i hi
          rw [List.append_assoc] at hi
          simp only [SearchQuery.new_param]
          rcases List.mem_append.mp hi with hi | hi
          · have := hcnt i (List.mem_append_left _ hi)
            simpa using this
          · rcases List.mem_cons.mp hi with hi | hi
            · subst hi; simp
            · have := hcnt i (List.mem_append_right _ (List.mem_cons_of_mem _ hi))
              simpa using this
        · simp only [SearchQuery.new_param, SearchQuery.searchBoundNames,
            List.map_append, List.flatten_append]
          simp only [SearchQuery.searchBoundNames] at hs1
          rw [hs1]
          simp
        · simp only [SearchQuery.new_param, SearchQuery.filterBoundNames]
          exact hs2

theorem paramNamesOk_init : paramNamesOk SearchQuery.init :=
  ⟨[], [], List.nodup_nil, by intro i hi; simp at hi, rfl, rfl⟩

theorem applyOp_preserves {q : SearchQuery} (h : paramNamesOk q) (op : BuilderOp) :
    paramNamesOk (applyOp q op) := by
  cases op with
  | search txt f st => exact paramNamesOk_search h txt f st
  | etext n => exact paramNamesOk_filter h _ _
  | etexts ns => exact paramNamesOk_filter h _ _
  | downloads_gte n => exact paramNamesOk_filter h _ _
  | downloads_lte n => exact paramNamesOk_filter h _ _
  | public_domain => exact paramNamesOk_rawFilter h _
  | copyrighted => exact paramNamesOk_rawFilter h _
  | lang c => exact paramNamesOk_filter h _ _
  | text_only => exact paramNamesOk_rawFilter h _
  | audiobook => exact paramNamesOk_rawFilter h _
  | author_born_after y => exact paramNamesOk_filter h _ _
  | author_born_before y => exact paramNamesOk_filter h _ _
  | author_died_after y => exact paramNamesOk_filter h _ _
  | author_died_before y => exact paramNamesOk_filter h _ _
  | released_after d => exact paramNamesOk_filter h _ _
  | released_before d => exact paramNamesOk_filter h _ _
  | locc c => exact paramNamesOk_filter h _ _
  | contributor_role r => exact paramNamesOk_filter h _ _
  | file_type ft => exact paramNamesOk_filter h _ _
  | author_id i => exact paramNamesOk_filter h _ _
  | subject_id i => exact paramNamesOk_filter h _ _
  | bookshelf_id i => exact paramNamesOk_filter h _ _
  | encoding e => exact paramNamesOk_filter h _ _
  | order_by o d => exact h
  | set_page p => exact h
  | set_page_and_size p s => exact h
  | crosswalk c => exact h

theorem applyOps_paramNamesOk (ops : List BuilderOp) :
    ∀ q : SearchQuery, paramNamesOk q → paramNamesOk (applyOps q ops) := by
  induction ops with
  | nil => intro q h; exact h
  | cons op rest ih => intro q h; exact ih _ (applyOp_preserves h op)

/-- C3.  Counterexample to unrestricted uniqueness: the raw `where` escape
hatch only rejects the reserved `__p` prefix, so two `where` calls may bind
the same caller-chosen parameter name twice.  Both predicates do appear in
the compiled AND-conjunction, but the two bindings collapse to one dict
entry, so the first predicate is silently evaluated against the second
call\x27s value. -/
theorem where_param_collision :
    ∃ q1 q2 : SearchQuery,
      SearchQuery.init.whereRaw "downloads >= :k" [("k", PValue.pint 100)]
          = Except.ok q1 ∧
      q1.whereRaw "downloads <= :k" [("k", PValue.pint 200)] = Except.ok q2 ∧
      q2.boundNames = ["k", "k"] ∧
      ¬ q2.boundNames.Nodup ∧
      q2.params_dict = [("k", PValue.pint 200)] ∧
      q2.filter_sql_opt = some "downloads >= :k AND downloads <= :k" := by
  refine ⟨_, _, rfl, rfl, rfl, ?_, rfl, rfl⟩
  decide

/-- C3 (amended).  Restricted to the builder methods proper — every public
method except the raw `where` escape hatch — the invariant holds: after any
sequence of builder calls starting from a fresh instance, the multiset of
bound parameter names has no duplicate, and never clashes with the
`rank_q` name injected later by `_order_sql`.  In particular two calls to
the same filter method produce the two distinct names `__p0` and `__p1`,
and both predicates appear in the compiled AND-conjunction with one dict
entry each. -/
theorem builder_unique_param_names (ops : List BuilderOp) :
    (applyOps SearchQuery.init ops).boundNames.Nodup ∧
    "rank_q" ∉ (applyOps SearchQuery.init ops).boundNames ∧
    ((SearchQuery.init.downloads_gte 100).downloads_gte 200).boundNames
        = ["__p0", "__p1"] ∧
    ((SearchQuery.init.downloads_gte 100).downloads_gte 200).filter_sql_opt
        = some "downloads >= :__p0 AND downloads >= :__p1" ∧
    ((SearchQuery.init.downloads_gte 100).downloads_gte 200).params_dict
        = [("__p0", PValue.pint 100), ("__p1", PValue.pint 200)] := by
  obtain ⟨ns1, ns2, hnd, hlt, hs1, hs2⟩ :=
    applyOps_paramNamesOk ops SearchQuery.init paramNamesOk_init
  refine ⟨?_, ?_, by decide, by decide, by decide⟩
  · unfold SearchQuery.boundNames
    rw [hs1, hs2, ← List.map_append]
    exact hnd.map (fun a b hab => paramName_inj hab)
  · unfold SearchQuery.boundNames
    rw [hs1, hs2, ← List.map_append]
    intro hm
    obtain ⟨n, hn, he⟩ := List.mem_map.mp hm
    exact paramName_ne_rank_q n he
